import Mathlib

/-!
# Verification of the mcpm router/aggregator core

This development shallowly embeds the router/aggregator core of mcpm:

* `MCPClientSessionManager` (src/mcpm/core/router/manager.py): session
  registry, capability aggregation with strict/non-strict collision
  handling, removal, and reconciliation (`update_sessions`).
* `MCPRouter` (src/mcpm/router/router.py): `add_server` / `remove_server`
  error behaviour.
* `RouterSseTransport.handle_post_message` and `patch_meta_data`
  (src/mcpm/router/transport.py).
* `ServerConnection` lifecycle (src/mcpm/router/client_connection.py).

Python dicts are modelled as association lists with unique keys in
insertion order; dict assignment (`d[k] = v`) is `dset`, `k in d` is
`dmem`, `d.get(k)` is `dget`, `d.pop(k)` (on a present key) is `dpop`.
I/O performed against a backend (the initialize handshake and the
`list_tools` / `list_prompts` / `list_resources` /
`list_resource_templates` calls) is modelled by recording the backend's
responses in the `ServerSpec` handed to the operation, which is the
standard way to make the environment's answers explicit inputs.
Logging and the per-server error-log files are side effects without
influence on the aggregate state and are not modelled.
-/

namespace Mcpm

/-! ## Python dict as association list -/

/-- A Python `dict` with `String` keys: association list in insertion
order.  All states built by the operations keep the keys unique. -/
abbrev Dict (α : Type) := List (String × α)

/-- `d.get(k)`: first value stored under `k`. -/
def dget {α : Type} (d : Dict α) (k : String) : Option α :=
  match d with
  | [] => none
  | (k', v) :: rest => if k' = k then some v else dget rest k

/-- `k in d`. -/
def dmem {α : Type} (d : Dict α) (k : String) : Bool :=
  (dget d k).isSome

/-- `d[k] = v`: replace in place if the key exists, else append. -/
def dset {α : Type} (d : Dict α) (k : String) (v : α) : Dict α :=
  match d with
  | [] => [(k, v)]
  | (k', v') :: rest => if k' = k then (k, v) :: rest else (k', v') :: dset rest k v

/-- `d.pop(k)` (for a present key), dropping the entry. -/
def dpop {α : Type} (d : Dict α) (k : String) : Dict α :=
  d.filter (fun p => p.1 ≠ k)

/-! ## Capability kinds and separators

`ResourceType` is `mcpm.core.mcp.types.ResourceType`.  The separator
constants are imported by the manager from `mcpm.utils.config`; that
module's copy in the tree does not define them, so their values are
modelled from the spec. -/

inductive ResourceType where
  | tool
  | prompt
  | resource
  | resource_template
deriving DecidableEq, Repr

/-- Modelled from the spec: `TOOL_SPLITOR` (from `mcpm.utils.config`) is
not present in the source tree; the spec fixes the tool separator to `.`. -/
def TOOL_SPLITOR : String := "."

/-- Modelled from the spec: `PROMPT_SPLITOR` (from `mcpm.utils.config`) is
not present in the source tree; the spec fixes the prompt separator to `.`. -/
def PROMPT_SPLITOR : String := "."

/-- Modelled from the spec: `RESOURCE_SPLITOR` (from `mcpm.utils.config`)
is not present in the source tree; the spec fixes the resource /
resource-template separator to `:`. -/
def RESOURCE_SPLITOR : String := ":"

/-! ## Data model for the session manager -/

/-- A resource URI as the manager manipulates it (`pydantic.AnyUrl`).
The `rest` component is the serialized path + query + fragment; the
username / password / port components (copied verbatim by the rename and
absent from the inputs considered here) are folded into the same shape. -/
structure Uri where
  scheme : String
  host : String
  rest : String
deriving DecidableEq, Repr

/-- `str(uri)` for a `Uri` with no username/password/port. -/
def uriStr (u : Uri) : String :=
  u.scheme ++ "://" ++ u.host ++ u.rest

/-- The `capabilities.model_dump()` flags recorded per server and used by
`get_aggregated_server_capabilities`. -/
structure Caps where
  tools : Bool
  prompts : Bool
  resources : Bool
  logging : Bool
deriving DecidableEq, Repr

/-- One backend as the manager observes it: its configuration name plus
the responses its `ServerConnection` would give (handshake health,
advertised capabilities, and the four listings). -/
structure ServerSpec where
  name : String
  healthy : Bool
  caps : Caps
  tools : List String
  prompts : List String
  resources : List Uri
  resourceTemplates : List String
deriving DecidableEq, Repr

/-- The mutable state of `MCPClientSessionManager`.

* `sessions` maps a server id to its connection; the stored `Bool` is
  the connection's current `healthy()` answer (`True` as stored by
  `_add_session_impl`, which only registers healthy connections).
* `capabilitiesMapping` is `self.capabilities_mapping`.
* the four `…Owner` dicts are `self.capabilities_to_server_id[rt]`;
* the four `…Mapping` dicts are `self.tools_mapping`,
  `self.prompts_mapping`, `self.resources_mapping`,
  `self.resources_templates_mapping`; the stored value is the original
  (pre-rename) name or URI of the descriptor object kept there. -/
structure ManagerState where
  strictMode : Bool
  sessions : Dict Bool
  capabilitiesMapping : Dict Caps
  toolsOwner : Dict String
  promptsOwner : Dict String
  resourcesOwner : Dict String
  templatesOwner : Dict String
  toolsMapping : Dict String
  promptsMapping : Dict String
  resourcesMapping : Dict Uri
  templatesMapping : Dict String
deriving DecidableEq, Repr

/-- `MCPClientSessionManager.__init__(strict_mode)`. -/
def initialState (strictMode : Bool) : ManagerState :=
  { strictMode := strictMode
    sessions := []
    capabilitiesMapping := []
    toolsOwner := []
    promptsOwner := []
    resourcesOwner := []
    templatesOwner := []
    toolsMapping := []
    promptsMapping := []
    resourcesMapping := []
    templatesMapping := [] }

/-- `capabilities_to_server_id[resource_type]`. -/
def ownersOf (st : ManagerState) : ResourceType → Dict String
  | .tool => st.toolsOwner
  | .prompt => st.promptsOwner
  | .resource => st.resourcesOwner
  | .resource_template => st.templatesOwner

/-- `MCPClientSessionManager.get_capability_server_id`. -/
def get_capability_server_id (st : ManagerState) (rt : ResourceType) (name : String) :
    Option String :=
  dget (ownersOf st rt) name

/-- `MCPClientSessionManager.get_alive_sessions`. -/
def get_alive_sessions (st : ManagerState) : List String :=
  (st.sessions.filter (fun p => p.2)).map Prod.fst

/-! ## Capability assembly

Each `_assemble_*` loop threads the manager state and, in strict mode,
can raise `ValueError`; a raise leaves the mutations made so far in
place, so the functions return the raised message (if any) together with
the state at the point of the raise. -/

/-- `MCPClientSessionManager._assemble_tools` (the loop body, one tool at
a time; `tools` is `list_tools().tools`, reduced to the tool names). -/
def assemble_tools (sid : String) (tools : List String) (st : ManagerState) :
    Option String × ManagerState :=
  match tools with
  | [] => (none, st)
  | tool :: rest =>
    if dmem st.toolsOwner tool then
      if st.strictMode then
        (some ("Tool " ++ tool ++ " already exists. Please use unique tool names across all servers."), st)
      else
        let tool_name := sid ++ TOOL_SPLITOR ++ tool
        assemble_tools sid rest
          { st with toolsOwner := dset st.toolsOwner tool_name sid
                    toolsMapping := dset st.toolsMapping tool_name tool }
    else
      assemble_tools sid rest
        { st with toolsOwner := dset st.toolsOwner tool sid
                  toolsMapping := dset st.toolsMapping tool tool }

/-- `MCPClientSessionManager._assemble_prompts`. -/
def assemble_prompts (sid : String) (prompts : List String) (st : ManagerState) :
    Option String × ManagerState :=
  match prompts with
  | [] => (none, st)
  | prompt :: rest =>
    if dmem st.promptsOwner prompt then
      if st.strictMode then
        (some ("Prompt " ++ prompt ++ " already exists. Please use unique prompt names across all servers."), st)
      else
        let prompt_name := sid ++ PROMPT_SPLITOR ++ prompt
        assemble_prompts sid rest
          { st with promptsOwner := dset st.promptsOwner prompt_name sid
                    promptsMapping := dset st.promptsMapping prompt_name prompt }
    else
      assemble_prompts sid rest
        { st with promptsOwner := dset st.promptsOwner prompt sid
                  promptsMapping := dset st.promptsMapping prompt prompt }

/-- The resource half of `MCPClientSessionManager._assemble_resources`:
on a collision the owner id is spliced into the URI host via
`AnyUrl.build(host=f"{server_id}{RESOURCE_SPLITOR}{host}", ...)`. -/
def assemble_resources_list (sid : String) (resources : List Uri) (st : ManagerState) :
    Option String × ManagerState :=
  match resources with
  | [] => (none, st)
  | resource :: rest =>
    if dmem st.resourcesOwner (uriStr resource) then
      if st.strictMode then
        (some ("Resource " ++ uriStr resource ++ " already exists. Please use unique resource names across all servers."), st)
      else
        let resource_uri : Uri := { resource with host := sid ++ RESOURCE_SPLITOR ++ resource.host }
        assemble_resources_list sid rest
          { st with resourcesOwner := dset st.resourcesOwner (uriStr resource_uri) sid
                    resourcesMapping := dset st.resourcesMapping (uriStr resource_uri) resource }
    else
      assemble_resources_list sid rest
        { st with resourcesOwner := dset st.resourcesOwner (uriStr resource) sid
                  resourcesMapping := dset st.resourcesMapping (uriStr resource) resource }

/-- The resource-template half of
`MCPClientSessionManager._assemble_resources`. -/
def assemble_templates_list (sid : String) (templates : List String) (st : ManagerState) :
    Option String × ManagerState :=
  match templates with
  | [] => (none, st)
  | tmpl :: rest =>
    if dmem st.templatesOwner tmpl then
      if st.strictMode then
        (some ("Resource template " ++ tmpl ++ " already exists. Please use unique resource template names across all servers."), st)
      else
        let tmpl_name := sid ++ RESOURCE_SPLITOR ++ tmpl
        assemble_templates_list sid rest
          { st with templatesOwner := dset st.templatesOwner tmpl_name sid
                    templatesMapping := dset st.templatesMapping tmpl_name tmpl }
    else
      assemble_templates_list sid rest
        { st with templatesOwner := dset st.templatesOwner tmpl sid
                  templatesMapping := dset st.templatesMapping tmpl tmpl }

/-- `MCPClientSessionManager._assemble_resources` (resources, then
resource templates; a raise in the first loop skips the second). -/
def assemble_resources (sid : String) (resources : List Uri) (templates : List String)
    (st : ManagerState) : Option String × ManagerState :=
  match assemble_resources_list sid resources st with
  | (some e, st') => (some e, st')
  | (none, st') => assemble_templates_list sid templates st'

/-- `MCPClientSessionManager._add_session_impl`.  The early returns (id
already present, unhealthy connection) leave the state untouched; once
the session and its capabilities record are stored, the assembly loops
run and any strict-mode raise propagates with the state as mutated so
far. -/
def add_session_impl (server_id : String) (cfg : ServerSpec) (st : ManagerState) :
    Option String × ManagerState :=
  if dmem st.sessions server_id then
    (none, st)
  else if !cfg.healthy then
    (none, st)
  else
    let st := { st with sessions := dset st.sessions server_id true }
    let st := { st with capabilitiesMapping := dset st.capabilitiesMapping server_id cfg.caps }
    let (e, st) := if cfg.caps.tools then assemble_tools server_id cfg.tools st else (none, st)
    match e with
    | some e => (some e, st)
    | none =>
      let (e, st) := if cfg.caps.prompts then assemble_prompts server_id cfg.prompts st else (none, st)
      match e with
      | some e => (some e, st)
      | none =>
        if cfg.caps.resources then
          assemble_resources server_id cfg.resources cfg.resourceTemplates st
        else (none, st)

/-- `MCPClientSessionManager.add_session`: catches every exception from
`_add_session_impl` (mutations made before the raise persist) and
reports success as a `Bool`. -/
def add_session (server_id : String) (cfg : ServerSpec) (st : ManagerState) :
    Bool × ManagerState :=
  match add_session_impl server_id cfg st with
  | (none, st') => (true, st')
  | (some _, st') => (false, st')

/-- `MCPClientSessionManager.remove_session`.  An unknown id is a logged
no-op; otherwise the session and capabilities records are popped and
every per-kind mapping entry whose recorded owner is `server_id` is
dropped together with its owner entry. -/
def remove_session (server_id : String) (st : ManagerState) : ManagerState :=
  if !dmem st.sessions server_id then st
  else
    { st with
      sessions := dpop st.sessions server_id
      capabilitiesMapping := dpop st.capabilitiesMapping server_id
      toolsMapping :=
        st.toolsMapping.filter (fun p => dget st.toolsOwner p.1 ≠ some server_id)
      toolsOwner :=
        st.toolsOwner.filter (fun p =>
          !(dmem st.toolsMapping p.1 && dget st.toolsOwner p.1 == some server_id))
      promptsMapping :=
        st.promptsMapping.filter (fun p => dget st.promptsOwner p.1 ≠ some server_id)
      promptsOwner :=
        st.promptsOwner.filter (fun p =>
          !(dmem st.promptsMapping p.1 && dget st.promptsOwner p.1 == some server_id))
      resourcesMapping :=
        st.resourcesMapping.filter (fun p => dget st.resourcesOwner p.1 ≠ some server_id)
      resourcesOwner :=
        st.resourcesOwner.filter (fun p =>
          !(dmem st.resourcesMapping p.1 && dget st.resourcesOwner p.1 == some server_id))
      templatesMapping :=
        st.templatesMapping.filter (fun p => dget st.templatesOwner p.1 ≠ some server_id)
      templatesOwner :=
        st.templatesOwner.filter (fun p =>
          !(dmem st.templatesMapping p.1 && dget st.templatesOwner p.1 == some server_id)) }

/-- `MCPClientSessionManager.update_sessions`: returns
`(ids added, ids removed)` next to the final state. -/
def update_sessions (server_configs : List ServerSpec) (st : ManagerState) :
    (List String × List String) × ManagerState :=
  if server_configs.isEmpty then (([], []), st)
  else
    let current_servers := get_alive_sessions st
    let new_servers := server_configs.map (·.name)
    let server_configs_to_add :=
      server_configs.filter (fun cfg => !current_servers.contains cfg.name)
    let server_ids_to_remove :=
      current_servers.filter (fun sid => !new_servers.contains sid)
    let st := server_configs_to_add.foldl (fun st cfg => (add_session cfg.name cfg st).2) st
    let st := server_ids_to_remove.foldl (fun st sid => remove_session sid st) st
    ((server_configs_to_add.map (·.name), server_ids_to_remove), st)

/-- Well-formedness: per-kind dicts have unique keys, and each owner dict
is keyed exactly like its mapping dict.  Every state the manager's
operations build satisfies this. -/
def managerWF (st : ManagerState) : Prop :=
  (st.toolsOwner.map Prod.fst).Nodup ∧ (st.promptsOwner.map Prod.fst).Nodup ∧
  (st.resourcesOwner.map Prod.fst).Nodup ∧ (st.templatesOwner.map Prod.fst).Nodup ∧
  (st.toolsMapping.map Prod.fst).Nodup ∧ (st.promptsMapping.map Prod.fst).Nodup ∧
  (st.resourcesMapping.map Prod.fst).Nodup ∧ (st.templatesMapping.map Prod.fst).Nodup ∧
  st.toolsOwner.map Prod.fst = st.toolsMapping.map Prod.fst ∧
  st.promptsOwner.map Prod.fst = st.promptsMapping.map Prod.fst ∧
  st.resourcesOwner.map Prod.fst = st.resourcesMapping.map Prod.fst ∧
  st.templatesOwner.map Prod.fst = st.templatesMapping.map Prod.fst

/-! ## MCPRouter (src/mcpm/router/router.py)

This sibling router prefixes *every* capability with its server id at
registration time (no “first owner keeps the bare name” rule).  The
claims use its `add_server` / `remove_server` error behaviour. -/

inductive ConnectionType where
  | stdio
  | sse
deriving DecidableEq, Repr

/-- `ConnectionDetails` plus the responses the constructed client would
give (`connect_to_server` success, advertised capabilities, listings). -/
structure ConnectionDetails where
  id : String
  type : ConnectionType
  connectOk : Bool
  caps : Caps
  tools : List String
  prompts : List String
  resources : List String
  resourceTemplates : List String
deriving DecidableEq, Repr

/-- The mutable state of `MCPRouter`; mapping values keep the original
name/URI of the stored descriptor. -/
structure RouterState where
  serverSessions : Dict Unit
  capabilitiesMapping : Dict Caps
  toolsMapping : Dict String
  promptsMapping : Dict String
  resourcesMapping : Dict String
  resourcesTemplatesMapping : Dict String
deriving DecidableEq, Repr

/-- `MCPRouter.add_server`.  A duplicate id raises (`ValueError`) before
any mutation; a connect failure propagates out of `connect_to_server`
likewise before any mutation; on success every listing entry is stored
under its namespaced key. -/
def MCPRouter_add_server (server_id : String) (connection : ConnectionDetails)
    (rs : RouterState) : Option String × RouterState :=
  if dmem rs.serverSessions server_id then
    (some ("Server with ID " ++ server_id ++ " already exists"), rs)
  else if !connection.connectOk then
    (some "connect failed", rs)
  else
    let rs := { rs with serverSessions := dset rs.serverSessions server_id Unit.unit }
    let rs := { rs with capabilitiesMapping := dset rs.capabilitiesMapping server_id connection.caps }
    let rs := if connection.caps.tools then
        { rs with toolsMapping :=
            (connection.tools.foldl (fun d t => dset d (server_id ++ "." ++ t) t)
              rs.toolsMapping) }
      else rs
    let rs := if connection.caps.prompts then
        { rs with promptsMapping :=
            (connection.prompts.foldl (fun d p => dset d (server_id ++ "." ++ p) p)
              rs.promptsMapping) }
      else rs
    let rs := if connection.caps.resources then
        { rs with
          resourcesMapping :=
            (connection.resources.foldl (fun d r => dset d (server_id ++ ":" ++ r) r)
              rs.resourcesMapping)
          resourcesTemplatesMapping :=
            (connection.resourceTemplates.foldl (fun d r => dset d (server_id ++ ":" ++ r) r)
              rs.resourcesTemplatesMapping) }
      else rs
    (none, rs)

/-- `MCPRouter.remove_server`.  An unknown id raises (`ValueError`)
before any mutation; otherwise the server is dropped and every mapping
key carrying its namespacing is removed by the `startswith` scans. -/
def MCPRouter_remove_server (server_id : String) (rs : RouterState) :
    Option String × RouterState :=
  if !dmem rs.serverSessions server_id then
    (some ("Server with ID " ++ server_id ++ " does not exist"), rs)
  else
    (none,
      { rs with
        serverSessions := dpop rs.serverSessions server_id
        capabilitiesMapping := dpop rs.capabilitiesMapping server_id
        toolsMapping :=
          rs.toolsMapping.filter (fun p => ! p.1.startsWith (server_id ++ "."))
        promptsMapping :=
          rs.promptsMapping.filter (fun p => ! p.1.startsWith (server_id ++ "."))
        resourcesMapping :=
          rs.resourcesMapping.filter (fun p => ! p.1.startsWith (server_id ++ ":"))
        resourcesTemplatesMapping :=
          rs.resourcesTemplatesMapping.filter (fun p => ! p.1.startsWith (server_id ++ ":")) })

/-! ## JSON values and `patch_meta_data` (src/mcpm/router/transport.py) -/

/-- A parsed JSON value as `json.loads` produces it (numbers collapsed to
integers; the claims never inspect numeric values). -/
inductive Json where
  | null
  | bool (b : Bool)
  | num (n : Int)
  | str (s : String)
  | arr (elems : List Json)
  | obj (fields : List (String × Json))

/-- Python `"_meta" in xs` for a list value. -/
def listHasMetaStr (xs : List Json) : Bool :=
  xs.any (fun x =>
    match x with
    | Json.str s => s = "_meta"
    | _ => false)

/-- Substring test on character lists (structural, so that concrete
inputs evaluate inside the kernel). -/
def containsSub (pat : List Char) : List Char → Bool
  | [] => pat.isEmpty
  | c :: rest => List.isPrefixOf pat (c :: rest) || containsSub pat rest

/-- Python `"_meta" in s` for a string value (substring test). -/
def strContainsMeta (s : String) : Bool :=
  containsSub "_meta".toList s.toList

/-- `patch_meta_data(body, **kwargs)` from `mcpm/router/transport.py`:
`json.loads` the body, ensure `params` and `params["_meta"]` exist, set
every keyword pair into `params["_meta"]`, and re-serialize.  A body
whose `params` (or `params["_meta"]`) is not a JSON object makes the
membership test / item assignment raise `TypeError` (modelled as
`Except.error ()`), except in the vacuous corners where Python's `in`
succeeds on a list/string and there is no pair to assign. -/
def patch_meta_data (data : Json) (kwargs : Dict Json) : Except Unit Json :=
  match data with
  | Json.obj fields =>
    let fields := if dmem fields "params" then fields else dset fields "params" (Json.obj [])
    match dget fields "params" with
    | some (Json.obj pf) =>
      let pf := if dmem pf "_meta" then pf else dset pf "_meta" (Json.obj [])
      match dget pf "_meta" with
      | some (Json.obj mf) =>
        Except.ok (Json.obj (dset fields "params" (Json.obj (dset pf "_meta"
          (Json.obj (kwargs.foldl (fun m kv => dset m kv.1 kv.2) mf))))))
      | some _ =>
        -- `"_meta"` is present but not a dict: each loop iteration's item
        -- assignment raises TypeError; with no kwargs nothing is touched
        if kwargs.isEmpty then Except.ok (Json.obj fields) else Except.error ()
      | none => Except.error ()
    | some (Json.arr xs) =>
      -- `"_meta" not in <list>` is element membership; absent → the
      -- `data["params"]["_meta"] = {}` assignment raises TypeError;
      -- present → only the kwargs loop can raise
      if listHasMetaStr xs then
        (if kwargs.isEmpty then Except.ok (Json.obj fields) else Except.error ())
      else Except.error ()
    | some (Json.str s) =>
      -- `"_meta" not in <str>` is a substring test; same shape as lists
      if strContainsMeta s then
        (if kwargs.isEmpty then Except.ok (Json.obj fields) else Except.error ())
      else Except.error ()
    | some _ => Except.error ()
    | none => Except.error ()
  | _ => Except.error ()

/-- The `params` object of a body, or `{}` when absent/non-object. -/
def paramsFieldsOf (fields : Dict Json) : Dict Json :=
  match dget fields "params" with
  | some (Json.obj pf) => pf
  | _ => []

/-- The `params._meta` object of a body, or `{}` when absent/non-object. -/
def metaFieldsOf (fields : Dict Json) : Dict Json :=
  match dget (paramsFieldsOf fields) "_meta" with
  | some (Json.obj mf) => mf
  | _ => []

/-- `params`, when present, is a JSON object. -/
def paramsShapeOk (fields : Dict Json) : Bool :=
  match dget fields "params" with
  | none => true
  | some (Json.obj _) => true
  | some _ => false

/-- `params._meta`, when present, is a JSON object. -/
def metaShapeOk (fields : Dict Json) : Bool :=
  match dget fields "params" with
  | some (Json.obj pf) =>
    match dget pf "_meta" with
    | none => true
    | some (Json.obj _) => true
    | some _ => false
  | _ => true

/-! ## `RouterSseTransport.handle_post_message` (src/mcpm/router/transport.py) -/

/-- The phase of the background `_server_lifespan_cycle` task. -/
inductive ConnPhase where
  | connecting
  | ready
  | failed
  | closed
deriving DecidableEq, Repr

/-- The observable fields of a `ServerConnection` plus the phase of its
lifespan task. -/
structure ConnState where
  phase : ConnPhase
  sessionSet : Bool
  initialized : Bool
  initializedEvent : Bool
  shutdownEvent : Bool
deriving DecidableEq, Repr

/-- `ServerConnection.__init__`: no session, nothing set, task started. -/
def ConnState.init : ConnState :=
  ⟨ConnPhase.connecting, false, false, false, false⟩

/-- `ServerConnection.healthy`:
`self.session is not None and self._initialized`. -/
def ConnState.healthy (c : ConnState) : Bool :=
  c.sessionSet && c.initialized

/-- One observable transition of `_server_lifespan_cycle` /
`request_for_shutdown`: a successful handshake, a handshake failure
(the `except` branch), a shutdown request (sets the event only), normal
unwinding of the `async with` blocks once the shutdown event is
observed, or an exception during that unwinding (caught by the same
`except` branch).  No branch ever resets `self.session` or
`self._initialized`. -/
inductive ConnStep : ConnState → ConnState → Prop where
  | handshake_ok (c : ConnState) (h : c.phase = ConnPhase.connecting) :
      ConnStep c { c with phase := ConnPhase.ready, sessionSet := true,
                          initialized := true, initializedEvent := true }
  | handshake_fail (c : ConnState) (h : c.phase = ConnPhase.connecting) :
      ConnStep c { c with phase := ConnPhase.failed,
                          initializedEvent := true, shutdownEvent := true }
  | request_shutdown (c : ConnState) :
      ConnStep c { c with shutdownEvent := true }
  | close_ok (c : ConnState) (h : c.phase = ConnPhase.ready)
      (hs : c.shutdownEvent = true) :
      ConnStep c { c with phase := ConnPhase.closed }
  | close_fail (c : ConnState) (h : c.phase = ConnPhase.ready)
      (hs : c.shutdownEvent = true) :
      ConnStep c { c with phase := ConnPhase.failed,
                          initializedEvent := true, shutdownEvent := true }

/-- States reachable from a freshly constructed connection. -/
def ConnReachable (c : ConnState) : Prop :=
  Relation.ReflTransGen ConnStep ConnState.init c

/-! ## Theorems -/

theorem dget_dset_self {α : Type} (d : Dict α) (k : String) (v : α) :
    dget (dset d k v) k = some v := by
  induction d with
  | nil => simp [dget, dset]
  | cons p rest ih =>
    by_cases h : p.1 = k
    · simp [dset, h, dget]
    · simp [dset, h, dget, ih]

theorem dget_dset_ne {α : Type} (d : Dict α) (k k' : String) (v : α) (h : k' ≠ k) :
    dget (dset d k v) k' = dget d k' := by
  have hne : k ≠ k' := Ne.symm h
  induction d with
  | nil => simp [dget, dset, hne]
  | cons p rest ih =>
    by_cases hp : p.1 = k
    · subst hp
      simp [dset, dget, hne]
    · simp [dset, hp, dget, ih]

theorem dmem_dset {α : Type} (d : Dict α) (k k' : String) (v : α) :
    dmem (dset d k v) k' = (k' = k || dmem d k') := by
  by_cases h : k' = k
  · subst h; simp [dmem, dget_dset_self]
  · simp [dmem, dget_dset_ne d k k' v h, h]

theorem dget_eq_none_of_not_mem {α : Type} (d : Dict α) (k : String)
    (h : k ∉ d.map Prod.fst) : dget d k = none := by
  induction d with
  | nil => rfl
  | cons p rest ih =>
    simp only [List.map_cons, List.mem_cons] at h
    push_neg at h
    have hne : p.1 ≠ k := Ne.symm h.1
    simp [dget, hne, ih h.2]

theorem dget_mem_keys {α : Type} (d : Dict α) (k : String) (v : α)
    (h : dget d k = some v) : k ∈ d.map Prod.fst := by
  by_contra hk
  rw [dget_eq_none_of_not_mem d k hk] at h
  exact Option.noConfusion h

/-- A lookup after filtering on a key-only predicate, provided the keys
are unique. -/
theorem dget_filter_key {α : Type} (d : Dict α) (q : String → Bool) (k : String)
    (hnd : (d.map Prod.fst).Nodup) :
    dget (d.filter (fun p => q p.1)) k = if q k then dget d k else none := by
  induction d with
  | nil => simp [dget]
  | cons p rest ih =>
    simp only [List.map_cons, List.nodup_cons] at hnd
    by_cases hk : p.1 = k
    · subst hk
      by_cases hq : q p.1
      · rw [List.filter_cons_of_pos (by simpa using hq)]
        simp [dget, hq]
      · rw [List.filter_cons_of_neg (by simpa using hq)]
        rw [ih hnd.2]
        simp [hq]
    · by_cases hq : q p.1
      · rw [List.filter_cons_of_pos (by simpa using hq)]
        simp only [dget, if_neg hk]
        exact ih hnd.2
      · rw [List.filter_cons_of_neg (by simpa using hq)]
        rw [ih hnd.2]
        simp only [dget, if_neg hk]

/-! ## Lemmas about the assembly loops -/

theorem assemble_tools_frame (sid : String) (tools : List String) (st : ManagerState) :
    (assemble_tools sid tools st).2.strictMode = st.strictMode ∧
    (assemble_tools sid tools st).2.sessions = st.sessions ∧
    (assemble_tools sid tools st).2.capabilitiesMapping = st.capabilitiesMapping ∧
    (assemble_tools sid tools st).2.promptsOwner = st.promptsOwner ∧
    (assemble_tools sid tools st).2.resourcesOwner = st.resourcesOwner ∧
    (assemble_tools sid tools st).2.templatesOwner = st.templatesOwner ∧
    (assemble_tools sid tools st).2.promptsMapping = st.promptsMapping ∧
    (assemble_tools sid tools st).2.resourcesMapping = st.resourcesMapping ∧
    (assemble_tools sid tools st).2.templatesMapping = st.templatesMapping := by
  induction tools generalizing st with
  | nil => simp [assemble_tools]
  | cons t rest ih =>
    simp only [assemble_tools]
    by_cases hm : dmem st.toolsOwner t
    · simp only [hm, if_true]
      by_cases hs : st.strictMode
      · simp [hs]
      · simp only [hs, Bool.false_eq_true, if_false]
        exact ih _
    · simp only [hm, Bool.false_eq_true, if_false]
      exact ih _

theorem assemble_tools_none (sid : String) (tools : List String) (st : ManagerState)
    (hs : st.strictMode = false) :
    (assemble_tools sid tools st).1 = none := by
  induction tools generalizing st with
  | nil => simp [assemble_tools]
  | cons t rest ih =>
    simp only [assemble_tools]
    by_cases hm : dmem st.toolsOwner t
    · simp only [hm, if_true, hs, Bool.false_eq_true, if_false]
      exact ih _ (by simp [hs])
    · simp only [hm, Bool.false_eq_true, if_false]
      exact ih _ (by simp [hs])

theorem assemble_tools_owner_eq (sid : String) (tools : List String)
    (st st' : ManagerState) (ho : st.toolsOwner = st'.toolsOwner)
    (hs : st.strictMode = st'.strictMode) :
    (assemble_tools sid tools st).2.toolsOwner = (assemble_tools sid tools st').2.toolsOwner := by
  induction tools generalizing st st' with
  | nil => simpa [assemble_tools] using ho
  | cons t rest ih =>
    simp only [assemble_tools, ho, hs]
    by_cases hm : dmem st'.toolsOwner t
    · simp only [hm, if_true]
      by_cases hstrict : st'.strictMode
      · simpa [hstrict] using ho
      · simp only [hstrict, Bool.false_eq_true, if_false]
        exact ih _ _ (by simp [ho]) (by simp [hs])
    · simp only [hm, Bool.false_eq_true, if_false]
      exact ih _ _ (by simp [ho]) (by simp [hs])

theorem assemble_tools_dmem_mono (sid : String) (tools : List String) (st : ManagerState)
    (k : String) (hk : dmem st.toolsOwner k = true) :
    dmem (assemble_tools sid tools st).2.toolsOwner k = true := by
  induction tools generalizing st with
  | nil => simpa [assemble_tools] using hk
  | cons t rest ih =>
    simp only [assemble_tools]
    by_cases hm : dmem st.toolsOwner t
    · simp only [hm, if_true]
      by_cases hstrict : st.strictMode
      · simpa [hstrict] using hk
      · simp only [hstrict, Bool.false_eq_true, if_false]
        exact ih _ (by simp [dmem_dset, hk])
    · simp only [hm, Bool.false_eq_true, if_false]
      exact ih _ (by simp [dmem_dset, hk])

/-- Every owner entry added by `_assemble_tools` carries `sid`. -/
theorem assemble_tools_owner_values (sid : String) (tools : List String) (st : ManagerState)
    (k : String) (v : String)
    (hv : dget (assemble_tools sid tools st).2.toolsOwner k = some v) :
    v = sid ∨ dget st.toolsOwner k = some v := by
  induction tools generalizing st with
  | nil => right; simpa [assemble_tools] using hv
  | cons t rest ih =>
    simp only [assemble_tools] at hv
    by_cases hm : dmem st.toolsOwner t
    · simp only [hm, if_true] at hv
      by_cases hstrict : st.strictMode
      · simp only [hstrict, if_true] at hv
        right; exact hv
      · simp only [hstrict, Bool.false_eq_true, if_false] at hv
        rcases ih _ hv with h | h
        · exact Or.inl h
        · by_cases hk : k = sid ++ TOOL_SPLITOR ++ t
          · subst hk
            rw [dget_dset_self] at h
            exact Or.inl (Option.some.inj h).symm
          · rw [dget_dset_ne _ _ _ _ hk] at h
            exact Or.inr h
    · simp only [hm, Bool.false_eq_true, if_false] at hv
      rcases ih _ hv with h | h
      · exact Or.inl h
      · by_cases hk : k = t
        · subst hk
          rw [dget_dset_self] at h
          exact Or.inl (Option.some.inj h).symm
        · rw [dget_dset_ne _ _ _ _ hk] at h
          exact Or.inr h

/-- In non-strict mode a listed tool name ends up claimed (under the bare
name by whoever holds it, possibly via an earlier insertion). -/
theorem assemble_tools_mem_claimed (sid : String) (tools : List String) (st : ManagerState)
    (hs : st.strictMode = false) (x : String) (hx : x ∈ tools) :
    dmem (assemble_tools sid tools st).2.toolsOwner x = true := by
  induction tools generalizing st with
  | nil => cases hx
  | cons t rest ih =>
    simp only [assemble_tools]
    rcases List.mem_cons.mp hx with hx | hx
    · subst hx
      by_cases hm : dmem st.toolsOwner x
      · simp only [hm, if_true, hs, Bool.false_eq_true, if_false]
        exact assemble_tools_dmem_mono _ _ _ _ (by simp [dmem_dset, hm])
      · simp only [hm, Bool.false_eq_true, if_false]
        exact assemble_tools_dmem_mono _ _ _ _ (by simp [dmem_dset])
    · by_cases hm : dmem st.toolsOwner t
      · simp only [hm, if_true, hs, Bool.false_eq_true, if_false]
        exact ih _ (by simp [hs]) hx
      · simp only [hm, Bool.false_eq_true, if_false]
        exact ih _ (by simp [hs]) hx

/-- A key already claimed whose name is not the rename target of any
listed tool keeps its owner (non-strict mode). -/
theorem assemble_tools_preserve (sid : String) (tools : List String) (st : ManagerState)
    (hs : st.strictMode = false) (k : String)
    (hk : dmem st.toolsOwner k = true)
    (hr : ∀ t ∈ tools, sid ++ TOOL_SPLITOR ++ t ≠ k) :
    dget (assemble_tools sid tools st).2.toolsOwner k = dget st.toolsOwner k := by
  induction tools generalizing st with
  | nil => simp [assemble_tools]
  | cons t rest ih =>
    simp only [assemble_tools]
    by_cases hm : dmem st.toolsOwner t
    · simp only [hm, if_true, hs, Bool.false_eq_true, if_false]
      have hne : k ≠ sid ++ TOOL_SPLITOR ++ t := fun h => hr t (List.mem_cons_self t rest) h.symm
      refine (ih _ (by simp [hs]) (by simp [dmem_dset, hk])
        (fun t' ht' => hr t' (List.mem_cons_of_mem _ ht'))).trans ?_
      exact dget_dset_ne _ _ _ _ hne
    · simp only [hm, Bool.false_eq_true, if_false]
      have hne : k ≠ t := by
        intro h; subst h; rw [hk] at hm; exact hm rfl
      refine (ih _ (by simp [hs]) (by simp [dmem_dset, hk])
        (fun t' ht' => hr t' (List.mem_cons_of_mem _ ht'))).trans ?_
      exact dget_dset_ne _ _ _ _ hne

/-- Ownership by `sid` itself survives the rest of the loop. -/
theorem assemble_tools_sid_stable (sid : String) (tools : List String) (st : ManagerState)
    (k : String) (hk : dget st.toolsOwner k = some sid) :
    dget (assemble_tools sid tools st).2.toolsOwner k = some sid := by
  induction tools generalizing st with
  | nil => simpa [assemble_tools] using hk
  | cons t rest ih =>
    simp only [assemble_tools]
    by_cases hm : dmem st.toolsOwner t
    · simp only [hm, if_true]
      by_cases hstrict : st.strictMode
      · simpa [hstrict] using hk
      · simp only [hstrict, Bool.false_eq_true, if_false]
        refine ih _ ?_
        by_cases he : k = sid ++ TOOL_SPLITOR ++ t
        · subst he; exact dget_dset_self _ _ _
        · rw [dget_dset_ne _ _ _ _ he]; exact hk
    · simp only [hm, Bool.false_eq_true, if_false]
      refine ih _ ?_
      by_cases he : k = t
      · subst he; exact dget_dset_self _ _ _
      · rw [dget_dset_ne _ _ _ _ he]; exact hk

/-- A colliding tool of `sid` is registered under its prefixed name
(non-strict mode). -/
theorem assemble_tools_prefixed (sid : String) (tools : List String) (st : ManagerState)
    (hs : st.strictMode = false) (x : String) (hx : x ∈ tools)
    (hclaimed : dmem st.toolsOwner x = true) :
    dget (assemble_tools sid tools st).2.toolsOwner (sid ++ TOOL_SPLITOR ++ x) = some sid := by
  induction tools generalizing st with
  | nil => cases hx
  | cons t rest ih =>
    simp only [assemble_tools]
    rcases List.mem_cons.mp hx with hx' | hx'
    · subst hx'
      simp only [hclaimed, if_true, hs, Bool.false_eq_true, if_false]
      exact assemble_tools_sid_stable _ _ _ _ (dget_dset_self _ _ _)
    · by_cases hm : dmem st.toolsOwner t
      · simp only [hm, if_true, hs, Bool.false_eq_true, if_false]
        exact ih _ (by simp [hs]) hx' (by simp [dmem_dset, hclaimed])
      · simp only [hm, Bool.false_eq_true, if_false]
        exact ih _ (by simp [hs]) hx' (by simp [dmem_dset, hclaimed])

theorem assemble_prompts_frame (sid : String) (xs : List String) (st : ManagerState) :
    (assemble_prompts sid xs st).2.strictMode = st.strictMode ∧
    (assemble_prompts sid xs st).2.sessions = st.sessions ∧
    (assemble_prompts sid xs st).2.capabilitiesMapping = st.capabilitiesMapping ∧
    (assemble_prompts sid xs st).2.toolsOwner = st.toolsOwner ∧
    (assemble_prompts sid xs st).2.resourcesOwner = st.resourcesOwner ∧
    (assemble_prompts sid xs st).2.templatesOwner = st.templatesOwner ∧
    (assemble_prompts sid xs st).2.toolsMapping = st.toolsMapping ∧
    (assemble_prompts sid xs st).2.resourcesMapping = st.resourcesMapping ∧
    (assemble_prompts sid xs st).2.templatesMapping = st.templatesMapping := by
  induction xs generalizing st with
  | nil => simp [assemble_prompts]
  | cons t rest ih =>
    simp only [assemble_prompts]
    by_cases hm : dmem st.promptsOwner t
    · simp only [hm, if_true]
      by_cases hs : st.strictMode
      · simp [hs]
      · simp only [hs, Bool.false_eq_true, if_false]
        exact ih _
    · simp only [hm, Bool.false_eq_true, if_false]
      exact ih _

theorem assemble_prompts_none (sid : String) (xs : List String) (st : ManagerState)
    (hs : st.strictMode = false) :
    (assemble_prompts sid xs st).1 = none := by
  induction xs generalizing st with
  | nil => simp [assemble_prompts]
  | cons t rest ih =>
    simp only [assemble_prompts]
    by_cases hm : dmem st.promptsOwner t
    · simp only [hm, if_true, hs, Bool.false_eq_true, if_false]
      exact ih _ (by simp [hs])
    · simp only [hm, Bool.false_eq_true, if_false]
      exact ih _ (by simp [hs])

theorem assemble_prompts_owner_eq (sid : String) (xs : List String)
    (st st' : ManagerState) (ho : st.promptsOwner = st'.promptsOwner)
    (hs : st.strictMode = st'.strictMode) :
    (assemble_prompts sid xs st).2.promptsOwner = (assemble_prompts sid xs st').2.promptsOwner := by
  induction xs generalizing st st' with
  | nil => simpa [assemble_prompts] using ho
  | cons t rest ih =>
    simp only [assemble_prompts, ho, hs]
    by_cases hm : dmem st'.promptsOwner t
    · simp only [hm, if_true]
      by_cases hstrict : st'.strictMode
      · simpa [hstrict] using ho
      · simp only [hstrict, Bool.false_eq_true, if_false]
        exact ih _ _ (by simp [ho]) (by simp [hs])
    · simp only [hm, Bool.false_eq_true, if_false]
      exact ih _ _ (by simp [ho]) (by simp [hs])

theorem assemble_prompts_dmem_mono (sid : String) (xs : List String) (st : ManagerState)
    (k : String) (hk : dmem st.promptsOwner k = true) :
    dmem (assemble_prompts sid xs st).2.promptsOwner k = true := by
  induction xs generalizing st with
  | nil => simpa [assemble_prompts] using hk
  | cons t rest ih =>
    simp only [assemble_prompts]
    by_cases hm : dmem st.promptsOwner t
    · simp only [hm, if_true]
      by_cases hstrict : st.strictMode
      · simpa [hstrict] using hk
      · simp only [hstrict, Bool.false_eq_true, if_false]
        exact ih _ (by simp [dmem_dset, hk])
    · simp only [hm, Bool.false_eq_true, if_false]
      exact ih _ (by simp [dmem_dset, hk])

theorem assemble_prompts_sid_stable (sid : String) (xs : List String) (st : ManagerState)
    (k : String) (hk : dget st.promptsOwner k = some sid) :
    dget (assemble_prompts sid xs st).2.promptsOwner k = some sid := by
  induction xs generalizing st with
  | nil => simpa [assemble_prompts] using hk
  | cons t rest ih =>
    simp only [assemble_prompts]
    by_cases hm : dmem st.promptsOwner t
    · simp only [hm, if_true]
      by_cases hstrict : st.strictMode
      · simpa [hstrict] using hk
      · simp only [hstrict, Bool.false_eq_true, if_false]
        refine ih _ ?_
        by_cases he : k = sid ++ PROMPT_SPLITOR ++ t
        · subst he; exact dget_dset_self _ _ _
        · rw [dget_dset_ne _ _ _ _ he]; exact hk
    · simp only [hm, Bool.false_eq_true, if_false]
      refine ih _ ?_
      by_cases he : k = t
      · subst he; exact dget_dset_self _ _ _
      · rw [dget_dset_ne _ _ _ _ he]; exact hk

theorem assemble_prompts_prefixed (sid : String) (xs : List String) (st : ManagerState)
    (hs : st.strictMode = false) (x : String) (hx : x ∈ xs)
    (hclaimed : dmem st.promptsOwner x = true) :
    dget (assemble_prompts sid xs st).2.promptsOwner (sid ++ PROMPT_SPLITOR ++ x) = some sid := by
  induction xs generalizing st with
  | nil => cases hx
  | cons t rest ih =>
    simp only [assemble_prompts]
    rcases List.mem_cons.mp hx with hx' | hx'
    · subst hx'
      simp only [hclaimed, if_true, hs, Bool.false_eq_true, if_false]
      exact assemble_prompts_sid_stable _ _ _ _ (dget_dset_self _ _ _)
    · by_cases hm : dmem st.promptsOwner t
      · simp only [hm, if_true, hs, Bool.false_eq_true, if_false]
        exact ih _ (by simp [hs]) hx' (by simp [dmem_dset, hclaimed])
      · simp only [hm, Bool.false_eq_true, if_false]
        exact ih _ (by simp [hs]) hx' (by simp [dmem_dset, hclaimed])

theorem assemble_templates_list_frame (sid : String) (xs : List String) (st : ManagerState) :
    (assemble_templates_list sid xs st).2.strictMode = st.strictMode ∧
    (assemble_templates_list sid xs st).2.sessions = st.sessions ∧
    (assemble_templates_list sid xs st).2.capabilitiesMapping = st.capabilitiesMapping ∧
    (assemble_templates_list sid xs st).2.toolsOwner = st.toolsOwner ∧
    (assemble_templates_list sid xs st).2.promptsOwner = st.promptsOwner ∧
    (assemble_templates_list sid xs st).2.resourcesOwner = st.resourcesOwner ∧
    (assemble_templates_list sid xs st).2.toolsMapping = st.toolsMapping ∧
    (assemble_templates_list sid xs st).2.promptsMapping = st.promptsMapping ∧
    (assemble_templates_list sid xs st).2.resourcesMapping = st.resourcesMapping := by
  induction xs generalizing st with
  | nil => simp [assemble_templates_list]
  | cons t rest ih =>
    simp only [assemble_templates_list]
    by_cases hm : dmem st.templatesOwner t
    · simp only [hm, if_true]
      by_cases hs : st.strictMode
      · simp [hs]
      · simp only [hs, Bool.false_eq_true, if_false]
        exact ih _
    · simp only [hm, Bool.false_eq_true, if_false]
      exact ih _

theorem assemble_templates_list_none (sid : String) (xs : List String) (st : ManagerState)
    (hs : st.strictMode = false) :
    (assemble_templates_list sid xs st).1 = none := by
  induction xs generalizing st with
  | nil => simp [assemble_templates_list]
  | cons t rest ih =>
    simp only [assemble_templates_list]
    by_cases hm : dmem st.templatesOwner t
    · simp only [hm, if_true, hs, Bool.false_eq_true, if_false]
      exact ih _ (by simp [hs])
    · simp only [hm, Bool.false_eq_true, if_false]
      exact ih _ (by simp [hs])

theorem assemble_templates_list_owner_eq (sid : String) (xs : List String)
    (st st' : ManagerState) (ho : st.templatesOwner = st'.templatesOwner)
    (hs : st.strictMode = st'.strictMode) :
    (assemble_templates_list sid xs st).2.templatesOwner = (assemble_templates_list sid xs st').2.templatesOwner := by
  induction xs generalizing st st' with
  | nil => simpa [assemble_templates_list] using ho
  | cons t rest ih =>
    simp only [assemble_templates_list, ho, hs]
    by_cases hm : dmem st'.templatesOwner t
    · simp only [hm, if_true]
      by_cases hstrict : st'.strictMode
      · simpa [hstrict] using ho
      · simp only [hstrict, Bool.false_eq_true, if_false]
        exact ih _ _ (by simp [ho]) (by simp [hs])
    · simp only [hm, Bool.false_eq_true, if_false]
      exact ih _ _ (by simp [ho]) (by simp [hs])

theorem assemble_templates_list_dmem_mono (sid : String) (xs : List String) (st : ManagerState)
    (k : String) (hk : dmem st.templatesOwner k = true) :
    dmem (assemble_templates_list sid xs st).2.templatesOwner k = true := by
  induction xs generalizing st with
  | nil => simpa [assemble_templates_list] using hk
  | cons t rest ih =>
    simp only [assemble_templates_list]
    by_cases hm : dmem st.templatesOwner t
    · simp only [hm, if_true]
      by_cases hstrict : st.strictMode
      · simpa [hstrict] using hk
      · simp only [hstrict, Bool.false_eq_true, if_false]
        exact ih _ (by simp [dmem_dset, hk])
    · simp only [hm, Bool.false_eq_true, if_false]
      exact ih _ (by simp [dmem_dset, hk])

theorem assemble_templates_list_sid_stable (sid : String) (xs : List String) (st : ManagerState)
    (k : String) (hk : dget st.templatesOwner k = some sid) :
    dget (assemble_templates_list sid xs st).2.templatesOwner k = some sid := by
  induction xs generalizing st with
  | nil => simpa [assemble_templates_list] using hk
  | cons t rest ih =>
    simp only [assemble_templates_list]
    by_cases hm : dmem st.templatesOwner t
    · simp only [hm, if_true]
      by_cases hstrict : st.strictMode
      · simpa [hstrict] using hk
      · simp only [hstrict, Bool.false_eq_true, if_false]
        refine ih _ ?_
        by_cases he : k = sid ++ RESOURCE_SPLITOR ++ t
        · subst he; exact dget_dset_self _ _ _
        · rw [dget_dset_ne _ _ _ _ he]; exact hk
    · simp only [hm, Bool.false_eq_true, if_false]
      refine ih _ ?_
      by_cases he : k = t
      · subst he; exact dget_dset_self _ _ _
      · rw [dget_dset_ne _ _ _ _ he]; exact hk

theorem assemble_templates_list_prefixed (sid : String) (xs : List String) (st : ManagerState)
    (hs : st.strictMode = false) (x : String) (hx : x ∈ xs)
    (hclaimed : dmem st.templatesOwner x = true) :
    dget (assemble_templates_list sid xs st).2.templatesOwner (sid ++ RESOURCE_SPLITOR ++ x) = some sid := by
  induction xs generalizing st with
  | nil => cases hx
  | cons t rest ih =>
    simp only [assemble_templates_list]
    rcases List.mem_cons.mp hx with hx' | hx'
    · subst hx'
      simp only [hclaimed, if_true, hs, Bool.false_eq_true, if_false]
      exact assemble_templates_list_sid_stable _ _ _ _ (dget_dset_self _ _ _)
    · by_cases hm : dmem st.templatesOwner t
      · simp only [hm, if_true, hs, Bool.false_eq_true, if_false]
        exact ih _ (by simp [hs]) hx' (by simp [dmem_dset, hclaimed])
      · simp only [hm, Bool.false_eq_true, if_false]
        exact ih _ (by simp [hs]) hx' (by simp [dmem_dset, hclaimed])

theorem assemble_resources_list_frame (sid : String) (xs : List Uri) (st : ManagerState) :
    (assemble_resources_list sid xs st).2.strictMode = st.strictMode ∧
    (assemble_resources_list sid xs st).2.sessions = st.sessions ∧
    (assemble_resources_list sid xs st).2.capabilitiesMapping = st.capabilitiesMapping ∧
    (assemble_resources_list sid xs st).2.toolsOwner = st.toolsOwner ∧
    (assemble_resources_list sid xs st).2.promptsOwner = st.promptsOwner ∧
    (assemble_resources_list sid xs st).2.templatesOwner = st.templatesOwner ∧
    (assemble_resources_list sid xs st).2.toolsMapping = st.toolsMapping ∧
    (assemble_resources_list sid xs st).2.promptsMapping = st.promptsMapping ∧
    (assemble_resources_list sid xs st).2.templatesMapping = st.templatesMapping := by
  induction xs generalizing st with
  | nil => simp [assemble_resources_list]
  | cons t rest ih =>
    simp only [assemble_resources_list]
    by_cases hm : dmem st.resourcesOwner (uriStr t)
    · simp only [hm, if_true]
      by_cases hs : st.strictMode
      · simp [hs]
      · simp only [hs, Bool.false_eq_true, if_false]
        exact ih _
    · simp only [hm, Bool.false_eq_true, if_false]
      exact ih _

theorem assemble_resources_list_none (sid : String) (xs : List Uri) (st : ManagerState)
    (hs : st.strictMode = false) :
    (assemble_resources_list sid xs st).1 = none := by
  induction xs generalizing st with
  | nil => simp [assemble_resources_list]
  | cons t rest ih =>
    simp only [assemble_resources_list]
    by_cases hm : dmem st.resourcesOwner (uriStr t)
    · simp only [hm, if_true, hs, Bool.false_eq_true, if_false]
      exact ih _ (by simp [hs])
    · simp only [hm, Bool.false_eq_true, if_false]
      exact ih _ (by simp [hs])

theorem assemble_resources_list_owner_eq (sid : String) (xs : List Uri)
    (st st' : ManagerState) (ho : st.resourcesOwner = st'.resourcesOwner)
    (hs : st.strictMode = st'.strictMode) :
    (assemble_resources_list sid xs st).2.resourcesOwner = (assemble_resources_list sid xs st').2.resourcesOwner := by
  induction xs generalizing st st' with
  | nil => simpa [assemble_resources_list] using ho
  | cons t rest ih =>
    simp only [assemble_resources_list, ho, hs]
    by_cases hm : dmem st'.resourcesOwner (uriStr t)
    · simp only [hm, if_true]
      by_cases hstrict : st'.strictMode
      · simpa [hstrict] using ho
      · simp only [hstrict, Bool.false_eq_true, if_false]
        exact ih _ _ (by simp [ho]) (by simp [hs])
    · simp only [hm, Bool.false_eq_true, if_false]
      exact ih _ _ (by simp [ho]) (by simp [hs])

theorem assemble_resources_list_dmem_mono (sid : String) (xs : List Uri) (st : ManagerState)
    (k : String) (hk : dmem st.resourcesOwner k = true) :
    dmem (assemble_resources_list sid xs st).2.resourcesOwner k = true := by
  induction xs generalizing st with
  | nil => simpa [assemble_resources_list] using hk
  | cons t rest ih =>
    simp only [assemble_resources_list]
    by_cases hm : dmem st.resourcesOwner (uriStr t)
    · simp only [hm, if_true]
      by_cases hstrict : st.strictMode
      · simpa [hstrict] using hk
      · simp only [hstrict, Bool.false_eq_true, if_false]
        exact ih _ (by simp [dmem_dset, hk])
    · simp only [hm, Bool.false_eq_true, if_false]
      exact ih _ (by simp [dmem_dset, hk])

theorem assemble_resources_list_sid_stable (sid : String) (xs : List Uri) (st : ManagerState)
    (k : String) (hk : dget st.resourcesOwner k = some sid) :
    dget (assemble_resources_list sid xs st).2.resourcesOwner k = some sid := by
  induction xs generalizing st with
  | nil => simpa [assemble_resources_list] using hk
  | cons t rest ih =>
    simp only [assemble_resources_list]
    by_cases hm : dmem st.resourcesOwner (uriStr t)
    · simp only [hm, if_true]
      by_cases hstrict : st.strictMode
      · simpa [hstrict] using hk
      · simp only [hstrict, Bool.false_eq_true, if_false]
        refine ih _ ?_
        by_cases he : k = uriStr { t with host := sid ++ RESOURCE_SPLITOR ++ t.host }
        · subst he; exact dget_dset_self _ _ _
        · rw [dget_dset_ne _ _ _ _ he]; exact hk
    · simp only [hm, Bool.false_eq_true, if_false]
      refine ih _ ?_
      by_cases he : k = (uriStr t)
      · subst he; exact dget_dset_self _ _ _
      · rw [dget_dset_ne _ _ _ _ he]; exact hk

theorem assemble_resources_list_prefixed (sid : String) (xs : List Uri) (st : ManagerState)
    (hs : st.strictMode = false) (x : Uri) (hx : x ∈ xs)
    (hclaimed : dmem st.resourcesOwner (uriStr x) = true) :
    dget (assemble_resources_list sid xs st).2.resourcesOwner (uriStr { x with host := sid ++ RESOURCE_SPLITOR ++ x.host }) = some sid := by
  induction xs generalizing st with
  | nil => cases hx
  | cons t rest ih =>
    simp only [assemble_resources_list]
    rcases List.mem_cons.mp hx with hx' | hx'
    · subst hx'
      simp only [hclaimed, if_true, hs, Bool.false_eq_true, if_false]
      exact assemble_resources_list_sid_stable _ _ _ _ (dget_dset_self _ _ _)
    · by_cases hm : dmem st.resourcesOwner (uriStr t)
      · simp only [hm, if_true, hs, Bool.false_eq_true, if_false]
        exact ih _ (by simp [hs]) hx' (by simp [dmem_dset, hclaimed])
      · simp only [hm, Bool.false_eq_true, if_false]
        exact ih _ (by simp [hs]) hx' (by simp [dmem_dset, hclaimed])

/-- Field-level description of `add_session` for a fresh healthy backend
in non-strict mode: it succeeds, registers the session and capabilities
records, and each per-kind owner dict is the result of running that
kind's assembly loop (an absent capability flag skips the loop, i.e.
runs it on the empty listing). -/
theorem add_session_nonstrict (sid : String) (cfg : ServerSpec) (st : ManagerState)
    (hs : st.strictMode = false) (hn : dmem st.sessions sid = false)
    (hh : cfg.healthy = true) :
    (add_session sid cfg st).1 = true ∧
    (add_session sid cfg st).2.strictMode = false ∧
    (add_session sid cfg st).2.sessions = dset st.sessions sid true ∧
    (add_session sid cfg st).2.capabilitiesMapping = dset st.capabilitiesMapping sid cfg.caps ∧
    (add_session sid cfg st).2.toolsOwner =
      (assemble_tools sid (if cfg.caps.tools then cfg.tools else []) st).2.toolsOwner ∧
    (add_session sid cfg st).2.promptsOwner =
      (assemble_prompts sid (if cfg.caps.prompts then cfg.prompts else []) st).2.promptsOwner ∧
    (add_session sid cfg st).2.resourcesOwner =
      (assemble_resources_list sid (if cfg.caps.resources then cfg.resources else []) st).2.resourcesOwner ∧
    (add_session sid cfg st).2.templatesOwner =
      (assemble_templates_list sid (if cfg.caps.resources then cfg.resourceTemplates else []) st).2.templatesOwner := by
  have himpl : add_session_impl sid cfg st =
      (none,
        (assemble_templates_list sid (if cfg.caps.resources then cfg.resourceTemplates else [])
          (assemble_resources_list sid (if cfg.caps.resources then cfg.resources else [])
            (assemble_prompts sid (if cfg.caps.prompts then cfg.prompts else [])
              (assemble_tools sid (if cfg.caps.tools then cfg.tools else [])
                { st with sessions := dset st.sessions sid true
                          capabilitiesMapping := dset st.capabilitiesMapping sid cfg.caps }).2).2).2).2) := by
    unfold add_session_impl
    simp only [hn, Bool.false_eq_true, if_false, hh, Bool.not_true]
    set st2 : ManagerState :=
      { st with sessions := dset st.sessions sid true
                capabilitiesMapping := dset st.capabilitiesMapping sid cfg.caps } with hst2
    have hs2 : st2.strictMode = false := hs
    rcases ht : assemble_tools sid (if cfg.caps.tools then cfg.tools else []) st2 with ⟨e3, st3⟩
    have he3 : e3 = none := by
      have := assemble_tools_none sid (if cfg.caps.tools then cfg.tools else []) st2 hs2
      rw [ht] at this; exact this
    subst he3
    have hs3 : st3.strictMode = false := by
      have := (assemble_tools_frame sid (if cfg.caps.tools then cfg.tools else []) st2).1
      rw [ht] at this; exact this.trans hs2
    rcases hp : assemble_prompts sid (if cfg.caps.prompts then cfg.prompts else []) st3 with ⟨e4, st4⟩
    have he4 : e4 = none := by
      have := assemble_prompts_none sid (if cfg.caps.prompts then cfg.prompts else []) st3 hs3
      rw [hp] at this; exact this
    subst he4
    have hs4 : st4.strictMode = false := by
      have := (assemble_prompts_frame sid (if cfg.caps.prompts then cfg.prompts else []) st3).1
      rw [hp] at this; exact this.trans hs3
    rcases hr : assemble_resources_list sid (if cfg.caps.resources then cfg.resources else []) st4 with ⟨e5, st5⟩
    have he5 : e5 = none := by
      have := assemble_resources_list_none sid (if cfg.caps.resources then cfg.resources else []) st4 hs4
      rw [hr] at this; exact this
    subst he5
    have hs5 : st5.strictMode = false := by
      have := (assemble_resources_list_frame sid (if cfg.caps.resources then cfg.resources else []) st4).1
      rw [hr] at this; exact this.trans hs4
    rcases htm : assemble_templates_list sid (if cfg.caps.resources then cfg.resourceTemplates else [])
        st5 with ⟨e6, st6⟩
    have he6 : e6 = none := by
      have := assemble_templates_list_none sid
        (if cfg.caps.resources then cfg.resourceTemplates else []) st5 hs5
      rw [htm] at this; exact this
    subst he6
    by_cases hct : cfg.caps.tools <;> by_cases hcp : cfg.caps.prompts <;>
      by_cases hcr : cfg.caps.resources <;>
    · first
      | (simp only [hct, if_true] at ht ⊢; rw [ht])
      | (simp only [hct, Bool.false_eq_true, if_false] at ht ⊢;
         simp only [assemble_tools] at ht; injection ht with _ ht'; subst ht')
      first
      | (simp only [hcp, if_true] at hp ⊢; rw [hp])
      | (simp only [hcp, Bool.false_eq_true, if_false] at hp ⊢;
         simp only [assemble_prompts] at hp; injection hp with _ hp'; subst hp')
      first
      | (simp only [hcr, if_true] at hr htm ⊢; rw [assemble_resources, hr]; simp [htm])
      | (simp only [hcr, Bool.false_eq_true, if_false] at hr htm ⊢;
         simp only [assemble_resources_list] at hr; injection hr with _ hr'; subst hr';
         simp only [assemble_templates_list] at htm; injection htm with _ htm'; subst htm';
         rfl)
  set ts := (if cfg.caps.tools then cfg.tools else []) with hts
  set ps := (if cfg.caps.prompts then cfg.prompts else []) with hps
  set rs := (if cfg.caps.resources then cfg.resources else []) with hrs
  set ms := (if cfg.caps.resources then cfg.resourceTemplates else []) with hms
  set st2 : ManagerState :=
    { st with sessions := dset st.sessions sid true
              capabilitiesMapping := dset st.capabilitiesMapping sid cfg.caps } with hst2
  have hs2 : st2.strictMode = false := hs
  have hadd : add_session sid cfg st =
      (true, (assemble_templates_list sid ms
        (assemble_resources_list sid rs
          (assemble_prompts sid ps (assemble_tools sid ts st2).2).2).2).2) := by
    unfold add_session
    rw [himpl]
  obtain ⟨ftS, ftSess, ftCaps, ftPO, ftRO, ftTO, -, -, -⟩ := assemble_tools_frame sid ts st2
  obtain ⟨fpS, fpSess, fpCaps, fpTO, fpRO, fpMO, -, -, -⟩ :=
    assemble_prompts_frame sid ps (assemble_tools sid ts st2).2
  obtain ⟨frS, frSess, frCaps, frTO, frPO, frMO, -, -, -⟩ :=
    assemble_resources_list_frame sid rs (assemble_prompts sid ps (assemble_tools sid ts st2).2).2
  obtain ⟨fmS, fmSess, fmCaps, fmTO, fmPO, fmRO, -, -, -⟩ :=
    assemble_templates_list_frame sid ms
      (assemble_resources_list sid rs (assemble_prompts sid ps (assemble_tools sid ts st2).2).2).2
  refine ⟨by rw [hadd], ?_, ?_, ?_, ?_, ?_, ?_, ?_⟩
  · rw [hadd]
    show (assemble_templates_list sid ms _).2.strictMode = false
    rw [fmS, frS, fpS, ftS]
    exact hs
  · rw [hadd]
    show (assemble_templates_list sid ms _).2.sessions = _
    rw [fmSess, frSess, fpSess, ftSess]
  · rw [hadd]
    show (assemble_templates_list sid ms _).2.capabilitiesMapping = _
    rw [fmCaps, frCaps, fpCaps, ftCaps]
  · rw [hadd]
    show (assemble_templates_list sid ms _).2.toolsOwner = _
    rw [fmTO, frTO, fpTO]
    exact assemble_tools_owner_eq sid ts st2 st rfl rfl
  · rw [hadd]
    show (assemble_templates_list sid ms _).2.promptsOwner = _
    rw [fmPO, frPO]
    exact assemble_prompts_owner_eq sid ps _ st (by rw [ftPO]) (by rw [ftS])
  · rw [hadd]
    show (assemble_templates_list sid ms _).2.resourcesOwner = _
    rw [fmRO]
    exact assemble_resources_list_owner_eq sid rs _ st (by rw [fpRO, ftRO])
      (by rw [fpS, ftS])
  · rw [hadd]
    show (assemble_templates_list sid ms _).2.templatesOwner = _
    exact assemble_templates_list_owner_eq sid ms _ st (by rw [frMO, fpMO, ftTO])
      (by rw [frS, fpS, ftS])

/-- Running `_assemble_tools` in strict mode over a listing whose names
are fresh up to a first colliding name `t` raises at `t`, keeping the
entries inserted before the collision and leaving `t`'s owner intact. -/
theorem assemble_tools_strict_collision (sid : String) (pre : List String) (t : String)
    (rest : List String) (st : ManagerState) (hs : st.strictMode = true)
    (hfresh : ∀ p ∈ pre, dmem st.toolsOwner p = false) (hnd : pre.Nodup)
    (hcl : dmem st.toolsOwner t = true) :
    ∃ e st', assemble_tools sid (pre ++ t :: rest) st = (some e, st') ∧
      st'.strictMode = st.strictMode ∧
      st'.sessions = st.sessions ∧
      st'.capabilitiesMapping = st.capabilitiesMapping ∧
      (∀ q ∈ pre, dget st'.toolsOwner q = some sid) ∧
      dget st'.toolsOwner t = dget st.toolsOwner t := by
  induction pre generalizing st with
  | nil =>
    refine ⟨"Tool " ++ t ++ " already exists. Please use unique tool names across all servers.",
      st, ?_, rfl, rfl, rfl, by simp, rfl⟩
    simp [assemble_tools, hcl, hs]
  | cons p pre' ih =>
    have hpf : dmem st.toolsOwner p = false := hfresh p (List.mem_cons_self _ _)
    have hpt : p ≠ t := by
      intro h; subst h; rw [hcl] at hpf; exact Bool.true_eq_false.mp hpf
    have hnd' : pre'.Nodup := hnd.of_cons
    have hpnotin : p ∉ pre' := (List.nodup_cons.mp hnd).1
    simp only [List.cons_append, assemble_tools, hpf, Bool.false_eq_true, if_false]
    set stN : ManagerState :=
      { st with toolsOwner := dset st.toolsOwner p sid
                toolsMapping := dset st.toolsMapping p p } with hstN
    have hsN : stN.strictMode = true := hs
    have hfreshN : ∀ q ∈ pre', dmem stN.toolsOwner q = false := by
      intro q hq
      have hqp : q ≠ p := fun h => hpnotin (h ▸ hq)
      simp [hstN, dmem_dset, hqp, hfresh q (List.mem_cons_of_mem _ hq)]
    have hclN : dmem stN.toolsOwner t = true := by
      simp [hstN, dmem_dset, hcl]
    obtain ⟨e, stF, heq, hS, hSess, hCaps, hPre, hT⟩ := ih stN hsN hfreshN hnd' hclN
    refine ⟨e, stF, heq, hS, hSess, hCaps, ?_, ?_⟩
    · intro q hq
      rcases List.mem_cons.mp hq with hq | hq
      · subst hq
        have hself : dget stN.toolsOwner q = some sid := dget_dset_self _ _ _
        have hst := assemble_tools_sid_stable sid (pre' ++ t :: rest) stN q hself
        rw [heq] at hst
        exact hst
      · exact hPre q hq
    · rw [hT]
      exact dget_dset_ne _ _ _ _ (Ne.symm hpt)

/-! ## Claim C1: strict-mode duplicate handling -/

/-- C1 counterexample: in strict mode, after backend `a` owns tool `t`,
registering backend `b` with tools `["u", "t"]` hits the duplicate error,
yet `b`'s session entry, its capabilities record and its already-inserted
tool `u` all remain registered — the aggregate is *not* left unchanged,
contradicting the claim. -/
theorem strict_mode_no_rollback_counterexample :
    (add_session "b" ⟨"b", true, ⟨true, false, false, false⟩, ["u", "t"], [], [], []⟩
      (add_session "a" ⟨"a", true, ⟨true, false, false, false⟩, ["t"], [], [], []⟩
        (initialState true)).2).1 = false ∧
    dmem (add_session "b" ⟨"b", true, ⟨true, false, false, false⟩, ["u", "t"], [], [], []⟩
      (add_session "a" ⟨"a", true, ⟨true, false, false, false⟩, ["t"], [], [], []⟩
        (initialState true)).2).2.sessions "b" = true ∧
    dmem (add_session "b" ⟨"b", true, ⟨true, false, false, false⟩, ["u", "t"], [], [], []⟩
      (add_session "a" ⟨"a", true, ⟨true, false, false, false⟩, ["t"], [], [], []⟩
        (initialState true)).2).2.capabilitiesMapping "b" = true ∧
    get_capability_server_id
      (add_session "b" ⟨"b", true, ⟨true, false, false, false⟩, ["u", "t"], [], [], []⟩
        (add_session "a" ⟨"a", true, ⟨true, false, false, false⟩, ["t"], [], [], []⟩
          (initialState true)).2).2 .tool "u" = some "b" := by
  refine ⟨?_, ?_, ?_, ?_⟩ <;> decide

/-- C1 (amended): in strict mode, when a backend being registered exposes
a capability name that is already claimed, the assembly raises a
duplicate-capability `ValueError`; `add_session` catches it and reports
failure, but the registration is *not* rolled back: the backend's session
and capabilities record stay registered, every tool inserted before the
colliding name keeps its entry, and the colliding name keeps its previous
owner. -/
theorem strict_mode_duplicate_partial_state (sid : String) (cfg : ServerSpec)
    (st : ManagerState) (pre : List String) (t : String) (rest : List String)
    (hs : st.strictMode = true) (hn : dmem st.sessions sid = false)
    (hh : cfg.healthy = true) (hct : cfg.caps.tools = true)
    (hsplit : cfg.tools = pre ++ t :: rest)
    (hfresh : ∀ p ∈ pre, dmem st.toolsOwner p = false) (hnd : pre.Nodup)
    (hcl : dmem st.toolsOwner t = true) :
    (add_session sid cfg st).1 = false ∧
    dget (add_session sid cfg st).2.sessions sid = some true ∧
    dmem (add_session sid cfg st).2.capabilitiesMapping sid = true ∧
    (∀ q ∈ pre, get_capability_server_id (add_session sid cfg st).2 .tool q = some sid) ∧
    get_capability_server_id (add_session sid cfg st).2 .tool t =
      get_capability_server_id st .tool t := by
  have hadd : ∃ e st', add_session_impl sid cfg st = (some e, st') ∧
      st'.sessions = dset st.sessions sid true ∧
      st'.capabilitiesMapping = dset st.capabilitiesMapping sid cfg.caps ∧
      (∀ q ∈ pre, dget st'.toolsOwner q = some sid) ∧
      dget st'.toolsOwner t = dget st.toolsOwner t := by
    unfold add_session_impl
    simp only [hn, Bool.false_eq_true, if_false, hh, Bool.not_true, hct, if_true]
    set st2 : ManagerState :=
      { st with sessions := dset st.sessions sid true
                capabilitiesMapping := dset st.capabilitiesMapping sid cfg.caps } with hst2
    obtain ⟨e, st', heq, hS, hSess, hCaps, hPre, hT⟩ :=
      assemble_tools_strict_collision sid pre t rest st2 hs hfresh hnd hcl
    rw [← hsplit] at heq
    rw [heq]
    exact ⟨e, st', rfl, hSess, hCaps, hPre, hT⟩
  obtain ⟨e, st', himpl, hSess, hCaps, hPre, hT⟩ := hadd
  have haddeq : add_session sid cfg st = (false, st') := by
    unfold add_session; rw [himpl]
  rw [haddeq]
  refine ⟨rfl, ?_, ?_, ?_, ?_⟩
  · rw [hSess]; exact dget_dset_self _ _ _
  · rw [hCaps]; simp [dmem_dset]
  · exact hPre
  · exact hT

/-- Closed witness for `strict_mode_duplicate_partial_state` at the
concrete two-backend scenario. -/
theorem strict_mode_duplicate_partial_state_witness :
    (add_session "b" ⟨"b", true, ⟨true, false, false, false⟩, ["u", "t"], [], [], []⟩
      (add_session "a" ⟨"a", true, ⟨true, false, false, false⟩, ["t"], [], [], []⟩
        (initialState true)).2).1 = false ∧
    dget (add_session "b" ⟨"b", true, ⟨true, false, false, false⟩, ["u", "t"], [], [], []⟩
      (add_session "a" ⟨"a", true, ⟨true, false, false, false⟩, ["t"], [], [], []⟩
        (initialState true)).2).2.sessions "b" = some true := by
  obtain ⟨h1, h2, -, -, -⟩ :=
    strict_mode_duplicate_partial_state "b"
      ⟨"b", true, ⟨true, false, false, false⟩, ["u", "t"], [], [], []⟩
      (add_session "a" ⟨"a", true, ⟨true, false, false, false⟩, ["t"], [], [], []⟩
        (initialState true)).2
      ["u"] "t" [] (by decide) (by decide) (by decide) (by decide) (by decide)
      (by decide) (by decide) (by decide)
  exact ⟨h1, h2⟩

/-! ## Claim C2: non-strict collision keeps the bare name with the first owner -/

/-- C2 counterexample: backends `a` (tools `["t", "b.t"]`) and `b`
(tools `["t", "b.t"]`) are a pair registered in order sharing the tool
name `"b.t"`, yet after both registrations the bare name `"b.t"`
resolves to `b`, not to the first-registered owner `a`: while processing
`b`, the colliding tool `"t"` is renamed to `"b.t"` and its insertion
overwrites `a`'s bare-name entry. -/
theorem nonstrict_bare_name_stolen_counterexample :
    "b.t" ∈ (⟨"a", true, ⟨true, false, false, false⟩, ["t", "b.t"], [], [], []⟩ : ServerSpec).tools ∧
    "b.t" ∈ (⟨"b", true, ⟨true, false, false, false⟩, ["t", "b.t"], [], [], []⟩ : ServerSpec).tools ∧
    get_capability_server_id
      (add_session "b" ⟨"b", true, ⟨true, false, false, false⟩, ["t", "b.t"], [], [], []⟩
        (add_session "a" ⟨"a", true, ⟨true, false, false, false⟩, ["t", "b.t"], [], [], []⟩
          (initialState false)).2).2 .tool "b.t" = some "b" ∧
    get_capability_server_id
      (add_session "b" ⟨"b", true, ⟨true, false, false, false⟩, ["t", "b.t"], [], [], []⟩
        (add_session "a" ⟨"a", true, ⟨true, false, false, false⟩, ["t", "b.t"], [], [], []⟩
          (initialState false)).2).2 .tool "b.t" ≠ some "a" := by
  refine ⟨?_, ?_, ?_, ?_⟩ <;> decide

/-- C2 (amended): for a pair of backends registered in order into an
empty non-strict aggregate and sharing a tool name `x`, the
first-registered backend keeps `x` under the bare name and the second is
reachable under `b.x` only — *provided* no tool of the second backend
renames onto the shared bare name (no `t` in its listing with
`b ++ "." ++ t = x`); without that proviso the bare name can be
overwritten (see the counterexample). -/
theorem nonstrict_first_owner_keeps_bare_name
    (a b x : String) (specA specB : ServerSpec) (hab : a ≠ b)
    (hAh : specA.healthy = true) (hAt : specA.caps.tools = true) (hAx : x ∈ specA.tools)
    (hBh : specB.healthy = true) (hBt : specB.caps.tools = true) (hBx : x ∈ specB.tools)
    (hside : ∀ t ∈ specB.tools, b ++ TOOL_SPLITOR ++ t ≠ x) :
    get_capability_server_id
      (add_session b specB (add_session a specA (initialState false)).2).2 .tool x = some a ∧
    get_capability_server_id
      (add_session b specB (add_session a specA (initialState false)).2).2 .tool
        (b ++ TOOL_SPLITOR ++ x) = some b ∧
    get_capability_server_id
      (add_session b specB (add_session a specA (initialState false)).2).2 .tool x ≠ some b := by
  obtain ⟨-, hs1, hSess1, -, hTO1, -, -, -⟩ :=
    add_session_nonstrict a specA (initialState false) rfl rfl hAh
  rw [if_pos hAt] at hTO1
  set st1 : ManagerState := (add_session a specA (initialState false)).2 with hst1
  have hclaim1 : dmem st1.toolsOwner x = true := by
    rw [hTO1]
    exact assemble_tools_mem_claimed a specA.tools (initialState false) rfl x hAx
  have hx1 : dget st1.toolsOwner x = some a := by
    rcases hov : dget st1.toolsOwner x with _ | v
    · exfalso
      have hfalse : dmem st1.toolsOwner x = false := by
        unfold dmem; rw [hov]; rfl
      rw [hclaim1] at hfalse
      exact Bool.true_eq_false.mp hfalse
    · have hva : v = a := by
        rw [hTO1] at hov
        rcases assemble_tools_owner_values a specA.tools (initialState false) x v hov with h | h
        · exact h
        · simp [initialState, dget] at h
      rw [hva]
  have hn2 : dmem st1.sessions b = false := by
    rw [hSess1]
    simp [initialState, dmem_dset, dmem, dget, hab, Ne.symm hab]
  obtain ⟨-, -, -, -, hTO2, -, -, -⟩ := add_session_nonstrict b specB st1 hs1 hn2 hBh
  rw [if_pos hBt] at hTO2
  have h1 : get_capability_server_id
      (add_session b specB st1).2 .tool x = some a := by
    show dget (add_session b specB st1).2.toolsOwner x = some a
    rw [hTO2, assemble_tools_preserve b specB.tools st1 hs1 x hclaim1 hside]
    exact hx1
  have h2 : get_capability_server_id
      (add_session b specB st1).2 .tool (b ++ TOOL_SPLITOR ++ x) = some b := by
    show dget (add_session b specB st1).2.toolsOwner (b ++ TOOL_SPLITOR ++ x) = some b
    rw [hTO2]
    exact assemble_tools_prefixed b specB.tools st1 hs1 x hBx hclaim1
  refine ⟨h1, h2, ?_⟩
  rw [h1]
  intro hcontra
  exact hab (Option.some.inj hcontra)

/-- Closed witness for `nonstrict_first_owner_keeps_bare_name`:
backends `a` and `b` both exposing tool `t`. -/
theorem nonstrict_first_owner_keeps_bare_name_witness :
    get_capability_server_id
      (add_session "b" ⟨"b", true, ⟨true, false, false, false⟩, ["t"], [], [], []⟩
        (add_session "a" ⟨"a", true, ⟨true, false, false, false⟩, ["t"], [], [], []⟩
          (initialState false)).2).2 .tool "t" = some "a" ∧
    get_capability_server_id
      (add_session "b" ⟨"b", true, ⟨true, false, false, false⟩, ["t"], [], [], []⟩
        (add_session "a" ⟨"a", true, ⟨true, false, false, false⟩, ["t"], [], [], []⟩
          (initialState false)).2).2 .tool ("b" ++ TOOL_SPLITOR ++ "t") = some "b" := by
  obtain ⟨h1, h2, -⟩ :=
    nonstrict_first_owner_keeps_bare_name "a" "b" "t"
      ⟨"a", true, ⟨true, false, false, false⟩, ["t"], [], [], []⟩
      ⟨"b", true, ⟨true, false, false, false⟩, ["t"], [], [], []⟩
      (by decide) (by decide) (by decide) (by decide) (by decide) (by decide)
      (by decide) (by decide)
  exact ⟨h1, h2⟩

/-! ## Claim C3: the shape of renamed colliding entries -/

/-- C3 counterexample: both backends expose the resource `s://h/p`.  The
claim predicts the colliding copy is exposed as
`"{ownerId}:{originalName}"`, i.e. `b:s://h/p`; the code instead splices
the owner into the URI host, exposing `s://b:h/p`. -/
theorem resource_rename_not_prefixed_counterexample :
    get_capability_server_id
      (add_session "b" ⟨"b", true, ⟨false, false, true, false⟩, [], [], [⟨"s", "h", "/p"⟩], []⟩
        (add_session "a" ⟨"a", true, ⟨false, false, true, false⟩, [], [], [⟨"s", "h", "/p"⟩], []⟩
          (initialState false)).2).2 .resource
      ("b" ++ RESOURCE_SPLITOR ++ uriStr ⟨"s", "h", "/p"⟩) = none ∧
    get_capability_server_id
      (add_session "b" ⟨"b", true, ⟨false, false, true, false⟩, [], [], [⟨"s", "h", "/p"⟩], []⟩
        (add_session "a" ⟨"a", true, ⟨false, false, true, false⟩, [], [], [⟨"s", "h", "/p"⟩], []⟩
          (initialState false)).2).2 .resource
      (uriStr ⟨"s", "b" ++ RESOURCE_SPLITOR ++ "h", "/p"⟩) = some "b" := by
  refine ⟨?_, ?_⟩ <;> decide

/-- C3 (amended): in default (non-strict) mode a colliding tool is
re-exposed as `{ownerId}.{name}`, a colliding prompt as
`{ownerId}.{name}`, a colliding resource template as `{ownerId}:{name}`;
a colliding resource, however, is re-exposed with the owner id spliced
into the URI host (`scheme://{ownerId}:{host}{rest}`), not by prefixing
the full URI string. -/
theorem default_mode_rename_shapes (sid : String) (cfg : ServerSpec) (st : ManagerState)
    (hs : st.strictMode = false) (hn : dmem st.sessions sid = false) (hh : cfg.healthy = true)
    (hct : cfg.caps.tools = true) (hcp : cfg.caps.prompts = true) (hcr : cfg.caps.resources = true)
    (t : String) (htm : t ∈ cfg.tools) (htc : dmem st.toolsOwner t = true)
    (p : String) (hpm : p ∈ cfg.prompts) (hpc : dmem st.promptsOwner p = true)
    (u : Uri) (hum : u ∈ cfg.resources) (huc : dmem st.resourcesOwner (uriStr u) = true)
    (m : String) (hmem : m ∈ cfg.resourceTemplates) (hmc : dmem st.templatesOwner m = true) :
    get_capability_server_id (add_session sid cfg st).2 .tool
      (sid ++ TOOL_SPLITOR ++ t) = some sid ∧
    get_capability_server_id (add_session sid cfg st).2 .prompt
      (sid ++ PROMPT_SPLITOR ++ p) = some sid ∧
    get_capability_server_id (add_session sid cfg st).2 .resource
      (uriStr { u with host := sid ++ RESOURCE_SPLITOR ++ u.host }) = some sid ∧
    get_capability_server_id (add_session sid cfg st).2 .resource_template
      (sid ++ RESOURCE_SPLITOR ++ m) = some sid := by
  obtain ⟨-, -, -, -, hTO, hPO, hRO, hMO⟩ := add_session_nonstrict sid cfg st hs hn hh
  rw [if_pos hct] at hTO
  rw [if_pos hcp] at hPO
  rw [if_pos hcr] at hRO
  rw [if_pos hcr] at hMO
  refine ⟨?_, ?_, ?_, ?_⟩
  · show dget (add_session sid cfg st).2.toolsOwner _ = _
    rw [hTO]
    exact assemble_tools_prefixed sid cfg.tools st hs t htm htc
  · show dget (add_session sid cfg st).2.promptsOwner _ = _
    rw [hPO]
    exact assemble_prompts_prefixed sid cfg.prompts st hs p hpm hpc
  · show dget (add_session sid cfg st).2.resourcesOwner _ = _
    rw [hRO]
    exact assemble_resources_list_prefixed sid cfg.resources st hs u hum huc
  · show dget (add_session sid cfg st).2.templatesOwner _ = _
    rw [hMO]
    exact assemble_templates_list_prefixed sid cfg.resourceTemplates st hs m hmem hmc

/-- Closed witness for `default_mode_rename_shapes`: backend `b` collides
with backend `a` on one capability of each kind. -/
theorem default_mode_rename_shapes_witness :
    get_capability_server_id
      (add_session "b"
        ⟨"b", true, ⟨true, true, true, false⟩, ["t"], ["p"], [⟨"s", "h", "/q"⟩], ["m"]⟩
        (add_session "a"
          ⟨"a", true, ⟨true, true, true, false⟩, ["t"], ["p"], [⟨"s", "h", "/q"⟩], ["m"]⟩
          (initialState false)).2).2 .tool ("b" ++ TOOL_SPLITOR ++ "t") = some "b" ∧
    get_capability_server_id
      (add_session "b"
        ⟨"b", true, ⟨true, true, true, false⟩, ["t"], ["p"], [⟨"s", "h", "/q"⟩], ["m"]⟩
        (add_session "a"
          ⟨"a", true, ⟨true, true, true, false⟩, ["t"], ["p"], [⟨"s", "h", "/q"⟩], ["m"]⟩
          (initialState false)).2).2 .resource
      (uriStr ⟨"s", "b" ++ RESOURCE_SPLITOR ++ "h", "/q"⟩) = some "b" := by
  obtain ⟨h1, -, h3, -⟩ :=
    default_mode_rename_shapes "b"
      ⟨"b", true, ⟨true, true, true, false⟩, ["t"], ["p"], [⟨"s", "h", "/q"⟩], ["m"]⟩
      (add_session "a"
        ⟨"a", true, ⟨true, true, true, false⟩, ["t"], ["p"], [⟨"s", "h", "/q"⟩], ["m"]⟩
        (initialState false)).2
      (by decide) (by decide) (by decide) (by decide) (by decide) (by decide)
      "t" (by decide) (by decide) "p" (by decide) (by decide)
      ⟨"s", "h", "/q"⟩ (by decide) (by decide) "m" (by decide) (by decide)
  exact ⟨h1, h3⟩

/-! ## Claim C4: removal removes exactly the owned entries -/

theorem dget_isSome_of_mem {α : Type} (d : Dict α) (k : String)
    (h : k ∈ d.map Prod.fst) : (dget d k).isSome = true := by
  induction d with
  | nil => cases h
  | cons p rest ih =>
    by_cases hk : p.1 = k
    · simp [dget, hk]
    · simp only [List.map_cons, List.mem_cons] at h
      rcases h with h | h
    
      · exact absurd h.symm hk
      · simp only [dget, if_neg hk]
        exact ih h

theorem dmem_iff_mem_keys {α : Type} (d : Dict α) (k : String) :
    dmem d k = true ↔ k ∈ d.map Prod.fst := by
  constructor
  · intro h
    rcases hov : dget d k with _ | v
    · rw [dmem, hov] at h
      cases h
    · exact dget_mem_keys d k v hov
  · intro h
    exact dget_isSome_of_mem d k h

theorem dmem_congr_keys {α β : Type} (d : Dict α) (d' : Dict β)
    (h : d.map Prod.fst = d'.map Prod.fst) (k : String) : dmem d k = dmem d' k := by
  by_cases hm : dmem d k = true
  · rw [hm]
    symm
    rw [dmem_iff_mem_keys, ← h]
    exact (dmem_iff_mem_keys d k).mp hm
  · rw [Bool.not_eq_true] at hm
    rw [hm]
    symm
    rw [← Bool.not_eq_true, dmem_iff_mem_keys, ← h]
    intro hmem
    rw [(dmem_iff_mem_keys d k).mpr hmem] at hm
    cases hm

/-- The filters used by `remove_session` drop exactly the entries whose
recorded owner is `sid`, for a pair of owner / mapping dicts with unique,
identical key sets. -/
theorem filter_owner_mapping_spec {δ : Type} (owner : Dict String) (mapping : Dict δ)
    (sid : String)
    (hndO : (owner.map Prod.fst).Nodup) (hndM : (mapping.map Prod.fst).Nodup)
    (hkeys : owner.map Prod.fst = mapping.map Prod.fst) :
    (∀ k, dget (owner.filter (fun p => !(dmem mapping p.1 && dget owner p.1 == some sid))) k =
       if dget owner k = some sid then none else dget owner k) ∧
    (∀ k, dget (mapping.filter (fun p => dget owner p.1 ≠ some sid)) k =
       if dget owner k = some sid then none else dget mapping k) := by
  constructor
  · intro k
    rw [dget_filter_key owner (fun k => !(dmem mapping k && dget owner k == some sid)) k hndO]
    rcases hov : dget owner k with _ | v
    · simp [hov]
    · by_cases hv : v = sid
      · subst hv
        have hmem : dmem mapping k = true := by
          rw [← dmem_congr_keys owner mapping hkeys]
          rw [dmem, hov]
          rfl
        simp [hov, hmem]
      · simp [hov, hv]
  · intro k
    rw [dget_filter_key mapping (fun k => decide (dget owner k ≠ some sid)) k hndM]
    rcases hov : dget owner k with _ | v
    · simp [hov]
    · by_cases hv : v = sid
      · subst hv
        simp [hov]
      · simp [hov, hv]

/-- C4: for every registered backend id, `remove_session` removes every
capability entry (owner and descriptor, all four kinds) recorded for that
id and none recorded for any other id: afterwards resolution returns
`none` exactly for the names the backend owned, and is unchanged for
every other name. -/
theorem remove_session_removes_exactly (sid : String) (st : ManagerState)
    (hwf : managerWF st) (hsess : dmem st.sessions sid = true) :
    (∀ rt k, get_capability_server_id (remove_session sid st) rt k =
      if get_capability_server_id st rt k = some sid then none
      else get_capability_server_id st rt k) ∧
    (∀ k, dget (remove_session sid st).toolsMapping k =
      if dget st.toolsOwner k = some sid then none else dget st.toolsMapping k) ∧
    (∀ k, dget (remove_session sid st).promptsMapping k =
      if dget st.promptsOwner k = some sid then none else dget st.promptsMapping k) ∧
    (∀ k, dget (remove_session sid st).resourcesMapping k =
      if dget st.resourcesOwner k = some sid then none else dget st.resourcesMapping k) ∧
    (∀ k, dget (remove_session sid st).templatesMapping k =
      if dget st.templatesOwner k = some sid then none else dget st.templatesMapping k) := by
  obtain ⟨hndTO, hndPO, hndRO, hndMO, hndTM, hndPM, hndRM, hndMM, hkT, hkP, hkR, hkM⟩ := hwf
  have hrem : remove_session sid st =
      { st with
        sessions := dpop st.sessions sid
        capabilitiesMapping := dpop st.capabilitiesMapping sid
        toolsMapping :=
          st.toolsMapping.filter (fun p => dget st.toolsOwner p.1 ≠ some sid)
        toolsOwner :=
          st.toolsOwner.filter (fun p =>
            !(dmem st.toolsMapping p.1 && dget st.toolsOwner p.1 == some sid))
        promptsMapping :=
          st.promptsMapping.filter (fun p => dget st.promptsOwner p.1 ≠ some sid)
        promptsOwner :=
          st.promptsOwner.filter (fun p =>
            !(dmem st.promptsMapping p.1 && dget st.promptsOwner p.1 == some sid))
        resourcesMapping :=
          st.resourcesMapping.filter (fun p => dget st.resourcesOwner p.1 ≠ some sid)
        resourcesOwner :=
          st.resourcesOwner.filter (fun p =>
            !(dmem st.resourcesMapping p.1 && dget st.resourcesOwner p.1 == some sid))
        templatesMapping :=
          st.templatesMapping.filter (fun p => dget st.templatesOwner p.1 ≠ some sid)
        templatesOwner :=
          st.templatesOwner.filter (fun p =>
            !(dmem st.templatesMapping p.1 && dget st.templatesOwner p.1 == some sid)) } := by
    unfold remove_session
    rw [hsess]
    rfl
  obtain ⟨hT1, hT2⟩ := filter_owner_mapping_spec st.toolsOwner st.toolsMapping sid hndTO hndTM hkT
  obtain ⟨hP1, hP2⟩ := filter_owner_mapping_spec st.promptsOwner st.promptsMapping sid hndPO hndPM hkP
  obtain ⟨hR1, hR2⟩ :=
    filter_owner_mapping_spec st.resourcesOwner st.resourcesMapping sid hndRO hndRM hkR
  obtain ⟨hM1, hM2⟩ :=
    filter_owner_mapping_spec st.templatesOwner st.templatesMapping sid hndMO hndMM hkM
  refine ⟨?_, ?_, ?_, ?_, ?_⟩
  · intro rt k
    cases rt
    · rw [hrem]; exact hT1 k
    · rw [hrem]; exact hP1 k
    · rw [hrem]; exact hR1 k
    · rw [hrem]; exact hM1 k
  · intro k; rw [hrem]; exact hT2 k
  · intro k; rw [hrem]; exact hP2 k
  · intro k; rw [hrem]; exact hR2 k
  · intro k; rw [hrem]; exact hM2 k

/-- Closed witness for `remove_session_removes_exactly`: removing backend
`a` from the two-backend aggregate of the collision scenario. -/
theorem remove_session_removes_exactly_witness :
    get_capability_server_id
      (remove_session "a"
        (add_session "b" ⟨"b", true, ⟨true, false, false, false⟩, ["t"], [], [], []⟩
          (add_session "a" ⟨"a", true, ⟨true, false, false, false⟩, ["t"], [], [], []⟩
            (initialState false)).2).2) .tool "t" = none ∧
    get_capability_server_id
      (remove_session "a"
        (add_session "b" ⟨"b", true, ⟨true, false, false, false⟩, ["t"], [], [], []⟩
          (add_session "a" ⟨"a", true, ⟨true, false, false, false⟩, ["t"], [], [], []⟩
            (initialState false)).2).2) .tool ("b" ++ TOOL_SPLITOR ++ "t") = some "b" := by
  obtain ⟨h1, -, -, -, -⟩ :=
    remove_session_removes_exactly "a"
      (add_session "b" ⟨"b", true, ⟨true, false, false, false⟩, ["t"], [], [], []⟩
        (add_session "a" ⟨"a", true, ⟨true, false, false, false⟩, ["t"], [], [], []⟩
          (initialState false)).2).2
      (by unfold managerWF; decide)
      (by decide)
  constructor
  · rw [h1 .tool "t"]
    decide
  · rw [h1 .tool ("b" ++ TOOL_SPLITOR ++ "t")]
    decide

/-! ## Claim C5: reconcile no-ops -/

/-- C5: `update_sessions([])` is a no-op even on a non-empty registry,
and `update_sessions` with a spec list whose id set matches the
currently-alive id set performs zero adds and zero removes (state
unchanged, both returned lists empty). -/
theorem update_sessions_noop :
    (∀ st : ManagerState, st.sessions ≠ [] → update_sessions [] st = (([], []), st)) ∧
    (∀ (st : ManagerState) (cfgs : List ServerSpec),
      (∀ cfg ∈ cfgs, cfg.name ∈ get_alive_sessions st) →
      (∀ sid ∈ get_alive_sessions st, sid ∈ cfgs.map ServerSpec.name) →
      update_sessions cfgs st = (([], []), st)) := by
  constructor
  · intro st _
    rfl
  · intro st cfgs h1 h2
    unfold update_sessions
    by_cases hc : cfgs.isEmpty
    · rw [if_pos hc]
    · rw [if_neg hc]
      have hadd : cfgs.filter (fun cfg => !(get_alive_sessions st).contains cfg.name) = [] := by
        rw [List.filter_eq_nil_iff]
        intro cfg hcfg
        simp only [Bool.not_eq_true', Bool.not_eq_false]
        exact List.elem_iff.mpr (h1 cfg hcfg)
      have hrem : (get_alive_sessions st).filter
          (fun sid => !(cfgs.map (·.name)).contains sid) = [] := by
        rw [List.filter_eq_nil_iff]
        intro sid hsid
        simp only [Bool.not_eq_true', Bool.not_eq_false]
        exact List.elem_iff.mpr (h2 sid hsid)
      simp only [hadd, hrem, List.foldl_nil, List.map_nil]

/-- Closed witness for `update_sessions_noop`: a registry holding one
alive session `a`, reconciled against `[]` and against `[a]`. -/
theorem update_sessions_noop_witness :
    update_sessions []
      (add_session "a" ⟨"a", true, ⟨true, false, false, false⟩, ["t"], [], [], []⟩
        (initialState false)).2 =
      (([], []),
        (add_session "a" ⟨"a", true, ⟨true, false, false, false⟩, ["t"], [], [], []⟩
          (initialState false)).2) ∧
    update_sessions [⟨"a", true, ⟨true, false, false, false⟩, ["t"], [], [], []⟩]
      (add_session "a" ⟨"a", true, ⟨true, false, false, false⟩, ["t"], [], [], []⟩
        (initialState false)).2 =
      (([], []),
        (add_session "a" ⟨"a", true, ⟨true, false, false, false⟩, ["t"], [], [], []⟩
          (initialState false)).2) := by
  constructor
  · exact update_sessions_noop.1 _ (by decide)
  · exact update_sessions_noop.2 _ _ (by decide) (by decide)

/-! ## Claim C8: connect failures are non-fatal -/

/-- An unhealthy connection is discarded by `_add_session_impl` before
anything is registered, and `add_session` still reports success. -/
theorem add_session_unhealthy (sid : String) (cfg : ServerSpec) (st : ManagerState)
    (hh : cfg.healthy = false) : add_session sid cfg st = (true, st) := by
  unfold add_session add_session_impl
  by_cases hm : dmem st.sessions sid
  · simp [hm]
  · simp [hm, hh]

/-- C8: when a backend's connect/handshake fails (`healthy()` is false),
`add_session` registers nothing — the state is unchanged and no error is
reported to the caller; a reconcile over an unhealthy and a healthy
backend completes normally, the healthy backend is registered and the
unhealthy one is simply absent from the aggregate. -/
theorem connect_failure_nonfatal :
    (∀ (sid : String) (cfg : ServerSpec) (st : ManagerState), cfg.healthy = false →
      add_session sid cfg st = (true, st)) ∧
    (∀ cfgU cfgH : ServerSpec, cfgU.healthy = false → cfgH.healthy = true →
      cfgU.name ≠ cfgH.name →
      update_sessions [cfgU, cfgH] (initialState false) =
        (([cfgU.name, cfgH.name], []),
          (add_session cfgH.name cfgH (initialState false)).2) ∧
      dmem (update_sessions [cfgU, cfgH] (initialState false)).2.sessions cfgU.name = false ∧
      dmem (update_sessions [cfgU, cfgH] (initialState false)).2.sessions cfgH.name = true) := by
  constructor
  · exact fun sid cfg st hh => add_session_unhealthy sid cfg st hh
  · intro cfgU cfgH hU hH hne
    have hsessH :
        (add_session cfgH.name cfgH (initialState false)).2.sessions =
          dset (initialState false).sessions cfgH.name true :=
      (add_session_nonstrict cfgH.name cfgH (initialState false) rfl rfl hH).2.2.1
    have hupd : update_sessions [cfgU, cfgH] (initialState false) =
        (([cfgU.name, cfgH.name], []), (add_session cfgH.name cfgH (initialState false)).2) := by
      unfold update_sessions
      simp only [List.isEmpty_cons, Bool.false_eq_true, if_false]
      have hcur : get_alive_sessions (initialState false) = [] := rfl
      simp only [hcur, List.contains_nil, Bool.not_false, List.filter_cons_of_pos,
        List.filter_nil, List.foldl_cons, List.foldl_nil, List.map_cons, List.map_nil]
      rw [add_session_unhealthy cfgU.name cfgU (initialState false) hU]
    refine ⟨hupd, ?_, ?_⟩
    · rw [hupd]
      show dmem (add_session cfgH.name cfgH (initialState false)).2.sessions cfgU.name = false
      rw [hsessH]
      simp [initialState, dmem_dset, dmem, dget, hne, Ne.symm hne]
    · rw [hupd]
      show dmem (add_session cfgH.name cfgH (initialState false)).2.sessions cfgH.name = true
      rw [hsessH]
      simp [dmem_dset]

/-- Closed witness for `connect_failure_nonfatal` at concrete backends. -/
theorem connect_failure_nonfatal_witness :
    add_session "u" ⟨"u", false, ⟨true, false, false, false⟩, ["t"], [], [], []⟩
      (initialState false) = (true, initialState false) ∧
    dmem (update_sessions
      [⟨"u", false, ⟨true, false, false, false⟩, ["t"], [], [], []⟩,
       ⟨"h", true, ⟨true, false, false, false⟩, ["t"], [], [], []⟩]
      (initialState false)).2.sessions "u" = false ∧
    dmem (update_sessions
      [⟨"u", false, ⟨true, false, false, false⟩, ["t"], [], [], []⟩,
       ⟨"h", true, ⟨true, false, false, false⟩, ["t"], [], [], []⟩]
      (initialState false)).2.sessions "h" = true := by
  refine ⟨connect_failure_nonfatal.1 "u" _ (initialState false) (by decide), ?_, ?_⟩
  · exact (connect_failure_nonfatal.2
      ⟨"u", false, ⟨true, false, false, false⟩, ["t"], [], [], []⟩
      ⟨"h", true, ⟨true, false, false, false⟩, ["t"], [], [], []⟩
      (by decide) (by decide) (by decide)).2.1
  · exact (connect_failure_nonfatal.2
      ⟨"u", false, ⟨true, false, false, false⟩, ["t"], [], [], []⟩
      ⟨"h", true, ⟨true, false, false, false⟩, ["t"], [], [], []⟩
      (by decide) (by decide) (by decide)).2.2

/-! ## Claim C6: duplicate add / unknown remove raise and leave state unchanged -/

/-- C6: `add_server` on an already-registered id raises the
already-exists `ValueError` with the registry untouched, and
`remove_server` on an unknown id raises the does-not-exist `ValueError`
with the registry untouched. -/
theorem add_remove_server_duplicate_errors :
    (∀ (rs : RouterState) (sid : String) (conn : ConnectionDetails),
      dmem rs.serverSessions sid = true →
      MCPRouter_add_server sid conn rs =
        (some ("Server with ID " ++ sid ++ " already exists"), rs)) ∧
    (∀ (rs : RouterState) (sid : String),
      dmem rs.serverSessions sid = false →
      MCPRouter_remove_server sid rs =
        (some ("Server with ID " ++ sid ++ " does not exist"), rs)) := by
  constructor
  · intro rs sid conn h
    unfold MCPRouter_add_server
    rw [if_pos h]
  · intro rs sid h
    unfold MCPRouter_remove_server
    rw [if_pos (by rw [h]; rfl)]

/-- Closed witness for `add_remove_server_duplicate_errors` on a registry
holding exactly the server `a`. -/
theorem add_remove_server_duplicate_errors_witness :
    MCPRouter_add_server "a"
      ⟨"a", ConnectionType.stdio, true, ⟨true, false, false, false⟩, ["t"], [], [], []⟩
      ⟨[("a", Unit.unit)], [("a", ⟨true, false, false, false⟩)], [("a.t", "t")], [], [], []⟩ =
      (some "Server with ID a already exists",
        ⟨[("a", Unit.unit)], [("a", ⟨true, false, false, false⟩)], [("a.t", "t")], [], [], []⟩) ∧
    MCPRouter_remove_server "b"
      ⟨[("a", Unit.unit)], [("a", ⟨true, false, false, false⟩)], [("a.t", "t")], [], [], []⟩ =
      (some "Server with ID b does not exist",
        ⟨[("a", Unit.unit)], [("a", ⟨true, false, false, false⟩)], [("a.t", "t")], [], [], []⟩) := by
  constructor
  · exact add_remove_server_duplicate_errors.1
      ⟨[("a", Unit.unit)], [("a", ⟨true, false, false, false⟩)], [("a.t", "t")], [], [], []⟩
      "a" ⟨"a", ConnectionType.stdio, true, ⟨true, false, false, false⟩, ["t"], [], [], []⟩
      (by decide)
  · exact add_remove_server_duplicate_errors.2
      ⟨[("a", Unit.unit)], [("a", ⟨true, false, false, false⟩)], [("a.t", "t")], [], [], []⟩
      "b" (by decide)

theorem dget_foldl_dset {α : Type} (kwargs : Dict α) (hnd : (kwargs.map Prod.fst).Nodup)
    (m : Dict α) (k : String) :
    dget (kwargs.foldl (fun m kv => dset m kv.1 kv.2) m) k =
      (dget kwargs k <|> dget m k) := by
  induction kwargs generalizing m with
  | nil => simp [dget]
  | cons kv rest ih =>
    simp only [List.map_cons, List.nodup_cons] at hnd
    simp only [List.foldl_cons]
    rw [ih hnd.2]
    by_cases hk : k = kv.1
    · subst hk
      have hnr : dget rest kv.1 = none :=
        dget_eq_none_of_not_mem rest kv.1 hnd.1
      simp [dget, hnr, dget_dset_self]
    · have hne : kv.1 ≠ k := Ne.symm hk
      simp [dget, hne, dget_dset_ne _ _ _ _ hk]

theorem dset_dset_same {α : Type} (d : Dict α) (k : String) (v w : α) :
    dset (dset d k v) k w = dset d k w := by
  induction d with
  | nil => simp [dset]
  | cons p rest ih =>
    by_cases hp : p.1 = k
    · simp [dset, hp]
    · simp [dset, hp, ih]

/-! ## Claim C10: the frame property of `patch_meta_data` -/

/-- C10 counterexample: a JSON object body whose `params` is an array.
The claim promises the patched object back (with `params._meta`
created); the code instead hits `data["params"]["_meta"] = {}` on a
list and raises `TypeError` — even with no metadata keys to set. -/
theorem patch_meta_data_params_array_counterexample :
    patch_meta_data (Json.obj [("params", Json.arr [])]) [] = Except.error () := by
  rfl

/-- C10 (amended): for every JSON object body whose `params` (if
present) is an object and whose `params._meta` (if present) is an
object, `patch_meta_data` returns the body with exactly the metadata
keys set into `params._meta` (last occurrence winning is moot for
Python kwargs, whose keys are distinct): every other top-level field,
every other `params` entry, and every unrelated pre-existing `_meta` key
are unchanged, and `params` / `_meta` are created when absent.  Bodies
violating the shape condition raise `TypeError` instead (see the
counterexample). -/
theorem patch_meta_data_frame (fields : Dict Json) (kwargs : Dict Json)
    (hnd : (kwargs.map Prod.fst).Nodup)
    (hp : paramsShapeOk fields = true) (hm : metaShapeOk fields = true) :
    patch_meta_data (Json.obj fields) kwargs =
      Except.ok (Json.obj (dset fields "params" (Json.obj (dset (paramsFieldsOf fields) "_meta"
        (Json.obj (kwargs.foldl (fun m kv => dset m kv.1 kv.2) (metaFieldsOf fields))))))) ∧
    (∀ k, k ≠ "params" →
      dget (dset fields "params" (Json.obj (dset (paramsFieldsOf fields) "_meta"
        (Json.obj (kwargs.foldl (fun m kv => dset m kv.1 kv.2) (metaFieldsOf fields)))))) k =
      dget fields k) ∧
    (∀ k, k ≠ "_meta" →
      dget (dset (paramsFieldsOf fields) "_meta"
        (Json.obj (kwargs.foldl (fun m kv => dset m kv.1 kv.2) (metaFieldsOf fields)))) k =
      dget (paramsFieldsOf fields) k) ∧
    (∀ k, dget (kwargs.foldl (fun m kv => dset m kv.1 kv.2) (metaFieldsOf fields)) k =
      (dget kwargs k <|> dget (metaFieldsOf fields) k)) := by
  refine ⟨?_, ?_, ?_, ?_⟩
  · unfold patch_meta_data
    rcases hpar : dget fields "params" with _ | pv
    · have hdm : dmem fields "params" = false := by unfold dmem; rw [hpar]; rfl
      have hget : dget (dset fields "params" (Json.obj [])) "params" = some (Json.obj []) :=
        dget_dset_self _ _ _
      simp only [hdm, Bool.false_eq_true, if_false, hget, paramsFieldsOf, metaFieldsOf, hpar]
      simp only [dmem, dget, Option.isSome_none, Bool.false_eq_true, if_false,
        dget_dset_self, dset_dset_same, eq_self_iff_true, if_true]
    · rcases pv with _ | b | n | sv | xs | pf
      case str => simp [paramsShapeOk, hpar] at hp
      case null => simp [paramsShapeOk, hpar] at hp
      case bool => simp [paramsShapeOk, hpar] at hp
      case num => simp [paramsShapeOk, hpar] at hp
      case arr => simp [paramsShapeOk, hpar] at hp
      case obj =>
        have hdm : dmem fields "params" = true := by unfold dmem; rw [hpar]; rfl
        simp only [hdm, if_true, hpar, paramsFieldsOf, metaFieldsOf]
        rcases hmeta : dget pf "_meta" with _ | mv
        · have hdm2 : dmem pf "_meta" = false := by unfold dmem; rw [hmeta]; rfl
          have hget2 : dget (dset pf "_meta" (Json.obj [])) "_meta" = some (Json.obj []) :=
            dget_dset_self _ _ _
          simp only [hdm2, Bool.false_eq_true, if_false, hget2, hmeta, dset_dset_same]
        · rcases mv with _ | b | n | sv | xs | mf
          case str => simp [metaShapeOk, hpar, hmeta] at hm
          case null => simp [metaShapeOk, hpar, hmeta] at hm
          case bool => simp [metaShapeOk, hpar, hmeta] at hm
          case num => simp [metaShapeOk, hpar, hmeta] at hm
          case arr => simp [metaShapeOk, hpar, hmeta] at hm
          case obj =>
            have hdm2 : dmem pf "_meta" = true := by unfold dmem; rw [hmeta]; rfl
            simp only [hdm2, if_true, hmeta]
  · intro k hk
    exact dget_dset_ne _ _ _ _ hk
  · intro k hk
    exact dget_dset_ne _ _ _ _ hk
  · intro k
    exact dget_foldl_dset kwargs hnd _ k

/-- Closed witness for `patch_meta_data_frame`: a body with one foreign
param, one unrelated `_meta` key, and one metadata pair to set. -/
theorem patch_meta_data_frame_witness :
    patch_meta_data
      (Json.obj [("jsonrpc", Json.str "2.0"),
                 ("params", Json.obj [("x", Json.num 1),
                                      ("_meta", Json.obj [("keep", Json.bool true)])])])
      [("profile", Json.str "p")] =
      Except.ok (Json.obj [("jsonrpc", Json.str "2.0"),
        ("params", Json.obj [("x", Json.num 1),
          ("_meta", Json.obj [("keep", Json.bool true), ("profile", Json.str "p")])])]) := by
  have h := (patch_meta_data_frame
    [("jsonrpc", Json.str "2.0"),
     ("params", Json.obj [("x", Json.num 1),
                          ("_meta", Json.obj [("keep", Json.bool true)])])]
    [("profile", Json.str "p")]
    (by decide) (by rfl) (by rfl)).1
  exact h

/-! ## Claim C7: the status codes of POST /messages/ -/

/-- C9 counterexample: connect successfully, request shutdown, let the
task unwind — the resulting CLOSED state is reachable and `healthy()`
still returns `true` there, because nothing resets `session` /
`_initialized`; the claim requires `false` after shutdown completes. -/
theorem healthy_true_after_close_counterexample :
    ConnReachable ⟨ConnPhase.closed, true, true, true, true⟩ ∧
    ConnState.healthy ⟨ConnPhase.closed, true, true, true, true⟩ = true := by
  constructor
  · have s1 : ConnStep ConnState.init ⟨ConnPhase.ready, true, true, true, false⟩ :=
      ConnStep.handshake_ok ConnState.init rfl
    have s2 : ConnStep ⟨ConnPhase.ready, true, true, true, false⟩
        ⟨ConnPhase.ready, true, true, true, true⟩ :=
      ConnStep.request_shutdown _
    have s3 : ConnStep ⟨ConnPhase.ready, true, true, true, true⟩
        ⟨ConnPhase.closed, true, true, true, true⟩ :=
      ConnStep.close_ok _ rfl rfl
    exact Relation.ReflTransGen.tail
      (Relation.ReflTransGen.tail (Relation.ReflTransGen.single s1) s2) s3
  · rfl

/-- C9 (amended): in every reachable state, `healthy()` equals the
`_initialized` flag: it is `false` before and during the handshake and
after a handshake failure, `true` in READY — and it *stays* `true` after
shutdown has been requested and completed (CLOSED), since no code path
resets the flags.  No transition leaves the CLOSED or FAILED phases. -/
theorem healthy_characterization :
    (∀ c : ConnState, ConnReachable c →
      ((ConnState.healthy c = true ↔ c.initialized = true) ∧
       (c.phase = ConnPhase.connecting → ConnState.healthy c = false) ∧
       (c.phase = ConnPhase.ready → ConnState.healthy c = true) ∧
       (c.phase = ConnPhase.closed → ConnState.healthy c = true))) ∧
    (∀ c c' : ConnState, ConnStep c c' →
      (c.phase = ConnPhase.closed → c'.phase = ConnPhase.closed) ∧
      (c.phase = ConnPhase.failed → c'.phase = ConnPhase.failed)) := by
  constructor
  · intro c hreach
    have hinv : c.sessionSet = c.initialized ∧
        (c.phase = ConnPhase.connecting → c.initialized = false) ∧
        (c.phase = ConnPhase.ready → c.initialized = true) ∧
        (c.phase = ConnPhase.closed → c.initialized = true) := by
      induction hreach with
      | refl =>
        exact ⟨rfl, fun _ => rfl, fun h => ConnPhase.noConfusion h, fun h => ConnPhase.noConfusion h⟩
      | tail hsteps hstep ih =>
        cases hstep with
        | handshake_ok h =>
          exact ⟨rfl, fun hc => ConnPhase.noConfusion hc, fun _ => rfl, fun _ => rfl⟩
        | handshake_fail h =>
          exact ⟨ih.1, fun hc => ConnPhase.noConfusion hc, fun hc => ConnPhase.noConfusion hc,
            fun hc => ConnPhase.noConfusion hc⟩
        | request_shutdown => exact ih
        | close_ok h hs =>
          exact ⟨ih.1, fun hc => ConnPhase.noConfusion hc, fun hc => ConnPhase.noConfusion hc,
            fun _ => ih.2.2.1 h⟩
        | close_fail h hs =>
          exact ⟨ih.1, fun hc => ConnPhase.noConfusion hc, fun hc => ConnPhase.noConfusion hc,
            fun hc => ConnPhase.noConfusion hc⟩
    refine ⟨?_, ?_, ?_, ?_⟩
    · unfold ConnState.healthy
      rw [hinv.1]
      simp
    · intro hc
      unfold ConnState.healthy
      rw [hinv.1, hinv.2.1 hc]
      rfl
    · intro hc
      unfold ConnState.healthy
      rw [hinv.1, hinv.2.2.1 hc]
      rfl
    · intro hc
      unfold ConnState.healthy
      rw [hinv.1, hinv.2.2.2 hc]
      rfl
  · intro c c' hstep
    cases hstep with
    | handshake_ok h =>
      exact ⟨fun hc => absurd (h.symm.trans hc) (by decide),
             fun hc => absurd (h.symm.trans hc) (by decide)⟩
    | handshake_fail h =>
      exact ⟨fun hc => absurd (h.symm.trans hc) (by decide),
             fun hc => absurd (h.symm.trans hc) (by decide)⟩
    | request_shutdown => exact ⟨fun hc => hc, fun hc => hc⟩
    | close_ok h hs =>
      exact ⟨fun hc => absurd (h.symm.trans hc) (by decide),
             fun hc => absurd (h.symm.trans hc) (by decide)⟩
    | close_fail h hs =>
      exact ⟨fun hc => absurd (h.symm.trans hc) (by decide),
             fun hc => absurd (h.symm.trans hc) (by decide)⟩

/-- Closed witness for `healthy_characterization`: the READY state
reached by one successful handshake. -/
theorem healthy_characterization_witness :
    ConnState.healthy ⟨ConnPhase.ready, true, true, true, false⟩ = true := by
  have hreach : ConnReachable ⟨ConnPhase.ready, true, true, true, false⟩ :=
    Relation.ReflTransGen.single (ConnStep.handshake_ok ConnState.init rfl)
  exact (healthy_characterization.1 _ hreach).2.2.1 rfl

end Mcpm

